import Mathlib

/-!
Verification of the form-submission core of the `crawler` repository.

Python strings are modelled as lists of characters (`PyStr`); machine
floats that only ever hold multiples of 0.05 in [0, 1] (confidence
scores) are modelled exactly as integers on a 0-100 scale, an order- and
arithmetic-preserving rescaling; and every fallible or stateful piece of
code is modelled as an explicit pure function.  Each definition
mirrors one function or constant of the Python sources; the doc comment
names it.
-/

set_option maxRecDepth 8192

/-- Python strings are modelled as lists of characters. -/
abbrev PyStr := List Char

/-- Embed a Lean string literal as a `PyStr`. -/
def pys (s : String) : PyStr := s.toList

/-- One-character ASCII lower-casing, as Python `str.lower` acts on the
ASCII range (the sources only ever compare ASCII and Japanese text, and
Japanese has no case). -/
def lowerChar (c : Char) : Char :=
  if 65 ≤ c.toNat ∧ c.toNat ≤ 90 then Char.ofNat (c.toNat + 32) else c

/-- One-character ASCII upper-casing, as Python `str.upper` acts on the
ASCII range. -/
def upperChar (c : Char) : Char :=
  if 97 ≤ c.toNat ∧ c.toNat ≤ 122 then Char.ofNat (c.toNat - 32) else c

/-- Python `str.lower` on the ASCII range. -/
def lowerL (l : PyStr) : PyStr := l.map lowerChar

/-- Python `str.upper` on the ASCII range. -/
def upperL (l : PyStr) : PyStr := l.map upperChar

/-- Python `str.isspace` / the `\s` class for ASCII whitespace. -/
def pyIsSpace (c : Char) : Bool :=
  c == ' ' || c == '\t' || c == '\n' || c == '\r' || c == '\x0b' || c == '\x0c'

/-- `startsWithL needle hay` holds when `needle` is a prefix of `hay`
(Python `str.startswith`). -/
def startsWithL : PyStr → PyStr → Bool
  | [], _ => true
  | _ :: _, [] => false
  | a :: as, b :: bs => a == b && startsWithL as bs

/-- `containsSub needle hay` holds when `needle` occurs contiguously in
`hay` (Python's `needle in hay` on strings). -/
def containsSub (n : PyStr) : PyStr → Bool
  | [] => startsWithL n []
  | c :: cs => startsWithL n (c :: cs) || containsSub n cs

/-- Python `str.endswith`. -/
def endsWithL (n l : PyStr) : Bool := startsWithL n.reverse l.reverse

/-- Python `str.strip()` restricted to ASCII whitespace. -/
def stripL (l : PyStr) : PyStr :=
  ((l.dropWhile pyIsSpace).reverse.dropWhile pyIsSpace).reverse

/-- Worker for `collapseWs`; the flag records whether the scan is inside
a whitespace run whose single replacement space was already emitted. -/
def collapseWsGo : Bool → PyStr → PyStr
  | _, [] => []
  | b, c :: cs =>
    if pyIsSpace c then
      if b then collapseWsGo true cs else ' ' :: collapseWsGo true cs
    else c :: collapseWsGo false cs

/-- Python `re.sub(r'\s+', ' ', s)`: every maximal run of whitespace
becomes a single space. -/
def collapseWs (l : PyStr) : PyStr := collapseWsGo false l

/-- Worker for `pySplit`; `acc` is the word being accumulated. -/
def pySplitGo (acc : PyStr) : PyStr → List PyStr
  | [] => if acc.isEmpty then [] else [acc]
  | c :: cs =>
    if pyIsSpace c then
      if acc.isEmpty then pySplitGo [] cs else acc :: pySplitGo [] cs
    else pySplitGo (acc ++ [c]) cs

/-- Python `str.split()` with no argument: split on whitespace runs,
dropping empty pieces. -/
def pySplit (l : PyStr) : List PyStr := pySplitGo [] l

/-- Python `' '.join(parts)`. -/
def joinSp : List PyStr → PyStr
  | [] => []
  | [p] => p
  | p :: ps => p ++ ' ' :: joinSp ps

/-- Python `str.capitalize()`: first character upper-cased, the rest
lower-cased (ASCII range). -/
def pyCapitalize : PyStr → PyStr
  | [] => []
  | c :: cs => upperChar c :: lowerL cs

/-- One character of the Japanese ranges used by the validator's
`re.search(r'[぀-ゟ゠-ヿ一-龯]', ...)` check. -/
def isJapaneseChar (c : Char) : Bool :=
  (0x3040 ≤ c.toNat && c.toNat ≤ 0x309F) ||
  (0x30A0 ≤ c.toNat && c.toNat ≤ 0x30FF) ||
  (0x4E00 ≤ c.toNat && c.toNat ≤ 0x9FAF)

/-- The validator's Japanese-text test. -/
def containsJapanese (l : PyStr) : Bool := l.any isJapaneseChar

/-- Python `s.replace('\r\n', '\n').replace('\r', '\n')`: every CRLF or
lone CR becomes a single LF. -/
def normNl : PyStr → PyStr
  | [] => []
  | [c] => if c = '\r' then ['\n'] else [c]
  | c :: d :: rest =>
    if c = '\r' then
      if d = '\n' then '\n' :: normNl rest else '\n' :: normNl (d :: rest)
    else c :: normNl (d :: rest)

/-- Worker for `collapseNl`; `run` counts the newlines of the current
run, whose output is not yet emitted. -/
def collapseNlGo (run : Nat) : PyStr → PyStr
  | [] => List.replicate (min run 2) '\n'
  | c :: cs =>
    if c = '\n' then collapseNlGo (run + 1) cs
    else List.replicate (min run 2) '\n' ++ c :: collapseNlGo 0 cs

/-- Python `re.sub(r'\n{3,}', '\n\n', s)`: every maximal run of three or
more LFs becomes exactly two (runs of one or two are kept as they are,
which `min run 2` renders uniformly). -/
def collapseNl (l : PyStr) : PyStr := collapseNlGo 0 l

/-- Python `str.split(ch)` on a one-character separator. -/
def splitOnChar (ch : Char) : PyStr → List PyStr
  | [] => [[]]
  | c :: cs =>
    if c = ch then [] :: splitOnChar ch cs
    else
      match splitOnChar ch cs with
      | [] => [[c]]
      | p :: ps => (c :: p) :: ps

/-- After at least one whitespace character, `b` starts (the `\s+b` tail
of a regex search). -/
def wsThen (b : PyStr) : PyStr → Bool
  | [] => false
  | c :: cs => pyIsSpace c && (startsWithL b cs || wsThen b cs)

/-- `re.search(a + r'\s+' + b, l)` for literal words `a`, `b`: somewhere
in `l`, `a` occurs, followed by one or more whitespace characters,
followed by `b`. -/
def wordWsWord (a b : PyStr) : PyStr → Bool
  | [] => false
  | c :: cs =>
    (startsWithL a (c :: cs) && wsThen b ((c :: cs).drop a.length)) ||
    wordWsWord a b cs

/-- `b` starts after zero or more non-newline characters (the `.*b` tail
of a regex search, `.` not matching newlines). -/
def noNlThen (b : PyStr) : PyStr → Bool
  | [] => startsWithL b []
  | c :: cs => startsWithL b (c :: cs) || (!(c == '\n') && noNlThen b cs)

/-- `re.search(a + '.*' + b, l)` for literal words `a`, `b`: somewhere in
`l`, `a` occurs, followed by `b` with no intervening newline. -/
def inOrderNoNl (a b : PyStr) : PyStr → Bool
  | [] => false
  | c :: cs =>
    (startsWithL a (c :: cs) && noNlThen b ((c :: cs).drop a.length)) ||
    inOrderNoNl a b cs

/-- A character that may continue an HTML tag name. -/
def tagNameChar (c : Char) : Bool := c.isAlpha || c.isDigit || c == '-'

/-- A `<form` tag opening starts at the head of the (lower-cased) list. -/
def formTagAt (l : PyStr) : Bool :=
  startsWithL (pys "<form") l &&
    (match l.drop 5 with
     | [] => true
     | c :: _ => !tagNameChar c)

/-- `BeautifulSoup(content).find('form')` is non-null: a `<form` tag
opening occurs somewhere in the lower-cased content. -/
def findFormTag : PyStr → Bool
  | [] => false
  | c :: cs => formTagAt (c :: cs) || findFormTag cs

/- ====================================================================
   FormDataValidator (src/crawler/submit_form/form_data_validator.py)
   ==================================================================== -/

/-- Character class of the local part of the validator's email regex
`[a-zA-Z0-9._%+-]`. -/
def isEmailLocalChar (c : Char) : Bool :=
  c.isAlpha || c.isDigit || c == '.' || c == '_' || c == '%' || c == '+' || c == '-'

/-- Character class of the domain part of the validator's email regex
`[a-zA-Z0-9.-]`. -/
def isEmailDomainChar (c : Char) : Bool :=
  c.isAlpha || c.isDigit || c == '.' || c == '-'

/-- Split at the first occurrence of `ch`, if any. -/
def splitAtFirst (ch : Char) : PyStr → Option (PyStr × PyStr)
  | [] => none
  | c :: cs =>
    if c = ch then some ([], cs)
    else
      match splitAtFirst ch cs with
      | some (a, b) => some (c :: a, b)
      | none => none

/-- Full match of `^[a-zA-Z0-9._%+-]+@[a-zA-Z0-9.-]+\.[a-zA-Z]{2,}$`
against the whole string.  Since `@` is not in the local class the split
must be at the first `@`, and since the TLD class has no dot the final
dot must be the last dot after the `@`, so the backtracking regex
succeeds exactly when this direct check does. -/
def matchEmailCore (s : PyStr) : Bool :=
  match splitAtFirst '@' s with
  | none => false
  | some (loc, rest) =>
    !loc.isEmpty && loc.all isEmailLocalChar &&
      (match splitAtFirst '.' rest.reverse with
       | none => false
       | some (tldRev, domRev) =>
         let tld := tldRev.reverse
         let dom := domRev.reverse
         !dom.isEmpty && dom.all isEmailDomainChar &&
           2 ≤ tld.length && tld.all Char.isAlpha)

/-- Python `re.match` of the email pattern: `$` also matches just before
one trailing newline. -/
def matchEmailPy (s : PyStr) : Bool :=
  matchEmailCore s || (s.getLast? == some '\n' && matchEmailCore s.dropLast)

/-- `FormDataValidator._format_email`: strip, lower-case, and if the
result does not match the email regex remove the remaining spaces. -/
def format_email (email0 : PyStr) : PyStr :=
  let email := lowerL (stripL email0)
  if matchEmailPy email then email
  else email.filter (fun c => !(c == ' '))

/-- `FormDataValidator._format_phone`: strip non-digits and re-hyphenate
following the Japanese / international rules of the source. -/
def format_phone (phone : PyStr) : PyStr :=
  let d := phone.filter Char.isDigit
  if d.isEmpty then phone
  else if d.length = 10 then
    d.take 2 ++ '-' :: ((d.drop 2).take 4) ++ '-' :: d.drop 6
  else if d.length = 11 then
    d.take 3 ++ '-' :: ((d.drop 3).take 4) ++ '-' :: d.drop 7
  else
    let special : Option PyStr :=
      if 7 ≤ d.length ∧ d.length ≤ 15 then
        if d.take 2 = pys "81" then
          let loc := d.drop 2
          if loc.length = 10 then
            some ('0' :: loc.take 1 ++ '-' :: ((loc.drop 1).take 4) ++ '-' :: loc.drop 5)
          else if loc.length = 9 then
            some ('0' :: loc.take 2 ++ '-' :: ((loc.drop 2).take 4) ++ '-' :: loc.drop 6)
          else if d.length = 12 then
            some (d.take 4 ++ '-' :: ((d.drop 4).take 4) ++ '-' :: d.drop 8)
          else none
        else if d.length = 12 then
          some (d.take 4 ++ '-' :: ((d.drop 4).take 4) ++ '-' :: d.drop 8)
        else none
      else none
    match special with
    | some r => r
    | none =>
      if 10 ≤ d.length then
        let f1 := if 4 < d.length then d.take (d.length - 4) ++ '-' :: d.drop (d.length - 4) else d
        if 9 < f1.length then
          let parts := splitOnChar '-' f1
          if parts.length = 2 then
            let p0 := parts.headD []
            let p1 := (parts.drop 1).headD []
            (p0.take (p0.length - 4)) ++ '-' :: (p0.drop (p0.length - 4)) ++ '-' :: p1
          else f1
        else f1
      else phone

/-- `FormDataValidator._format_name`: collapse whitespace; Japanese names
are returned as-is, English names are word-capitalized. -/
def format_name (name0 : PyStr) : PyStr :=
  let name := collapseWs (stripL name0)
  if containsJapanese name then name
  else joinSp ((pySplit name).map pyCapitalize)

/-- The validator's company-name abbreviation list. -/
def companyAbbrevs : List PyStr := [pys "LLC", pys "Inc", pys "Ltd", pys "Corp", pys "Co"]

/-- One word of `FormDataValidator._format_company`: known abbreviations
are upper-cased, other words capitalized. -/
def capCompanyPart (p : PyStr) : PyStr :=
  if (companyAbbrevs.map upperL).contains (upperL p) then upperL p else pyCapitalize p

/-- `FormDataValidator._format_company`. -/
def format_company (company0 : PyStr) : PyStr :=
  let company := collapseWs (stripL company0)
  if containsJapanese company then company
  else joinSp ((pySplit company).map capCompanyPart)

/-- `FormDataValidator._format_message`: normalize line breaks, collapse
runs of three or more blank lines, and strip. -/
def format_message (message0 : PyStr) : PyStr :=
  stripL (collapseNl (normNl message0))

/-- `FormDataValidator.validate_and_format`: dispatch on field type and
(lower-cased) field name to the per-purpose formatter. -/
def validate_and_format (field_name : PyStr) (value : PyStr) (field_type : Option PyStr) : PyStr :=
  if value.isEmpty then value
  else
    let fn := lowerL field_name
    let value_str := stripL value
    if field_type == some (pys "email") || containsSub (pys "email") fn ||
        containsSub (pys "mail") fn then
      format_email value_str
    else if field_type == some (pys "tel") || containsSub (pys "phone") fn ||
        containsSub (pys "tel") fn || containsSub (pys "電話") field_name then
      format_phone value_str
    else if containsSub (pys "name") fn || containsSub (pys "名前") field_name then
      format_name value_str
    else if containsSub (pys "company") fn || containsSub (pys "会社") field_name then
      format_company value_str
    else if field_type == some (pys "textarea") || containsSub (pys "message") fn ||
        containsSub (pys "内容") field_name then
      format_message value_str
    else value_str

/-- The dispatch condition of `validate_and_format`'s email branch. -/
def selectsEmailBranch (field_name : PyStr) (field_type : Option PyStr) : Bool :=
  field_type == some (pys "email") || containsSub (pys "email") (lowerL field_name) ||
    containsSub (pys "mail") (lowerL field_name)

/-- `validate_and_format` routes the field to the phone formatter: the
phone condition holds and the email branch (checked first) does not. -/
def selectsPhoneBranch (field_name : PyStr) (field_type : Option PyStr) : Bool :=
  !selectsEmailBranch field_name field_type &&
    (field_type == some (pys "tel") || containsSub (pys "phone") (lowerL field_name) ||
     containsSub (pys "tel") (lowerL field_name) || containsSub (pys "電話") field_name)

/-- `FormDataValidator.validate_form_data`: format every entry of the
data dictionary, looking its HTML type up in `field_info`. -/
def validate_form_data (form_data : List (PyStr × PyStr))
    (field_info : List (PyStr × Option PyStr)) : List (PyStr × PyStr) :=
  form_data.map fun e =>
    (e.1, validate_and_format e.1 e.2 ((field_info.find? (fun i => i.1 == e.1)).bind (·.2)))

/- ====================================================================
   SubmissionVerifier (src/crawler/submit_form/form_submitter.py)
   ==================================================================== -/

/-- `SubmissionVerifier.SUCCESS_KEYWORDS`. -/
def SUCCESS_KEYWORDS : List PyStr :=
  [pys "thank you", pys "thanks", pys "success", pys "successful", pys "submitted",
   pys "received", pys "sent", pys "confirmed", pys "completed", pys "appreciate",
   pys "ありがとうございました", pys "ありがとうございます", pys "完了", pys "送信完了",
   pys "確認", pys "確認画面", pys "送信確認", pys "確認いたしました",
   pys "受け付け", pys "受け取り", pys "受信", pys "受け付けました",
   pys "お問い合わせ", pys "ご送信", pys "送信する", pys "ご送信ありがとう",
   pys "登録完了", pys "ご登録ありがとう", pys "登録されました",
   pys "予約完了", pys "ご予約ありがとう", pys "予約されました",
   pys "処理完了", pys "処理しました", pys "手続き完了",
   pys "申し込み", pys "申し込み完了", pys "お申し込みありがとう",
   pys "メール送信", pys "メッセージ送信", pys "送信しました"]

/-- `SubmissionVerifier.ERROR_KEYWORDS`. -/
def ERROR_KEYWORDS : List PyStr :=
  [pys "error", pys "fail", pys "failed", pys "invalid", pys "incorrect", pys "problem",
   pys "エラー", pys "失敗", pys "不正", pys "無効", pys "問題", pys "入力してください"]

/-- The source texts of `SubmissionVerifier.SUCCESS_URL_PATTERNS`,
used only for the indicator message. -/
def SUCCESS_URL_PATTERN_TEXTS : List PyStr :=
  [pys "/thanks?", pys "/thank[-_]you", pys "/success", pys "/complete",
   pys "/confirmation", pys "/完了", pys "/送信完了"]

/-- Index of the first pattern of `SUCCESS_URL_PATTERNS` that
`re.search(pattern, url, re.IGNORECASE)` finds.  Each pattern is either
a literal (a plain substring search on the lower-cased url) or carries
one optional/choice character, rendered as the equivalent substring
tests: `/thanks?` succeeds exactly when `/thank` occurs, and
`/thank[-_]you` when `/thank-you` or `/thank_you` occurs. -/
def successUrlPatternIdx (url : PyStr) : Option Nat :=
  let u := lowerL url
  if containsSub (pys "/thank") u then some 0
  else if containsSub (pys "/thank-you") u || containsSub (pys "/thank_you") u then some 1
  else if containsSub (pys "/success") u then some 2
  else if containsSub (pys "/complete") u then some 3
  else if containsSub (pys "/confirmation") u then some 4
  else if containsSub (pys "/完了") u then some 5
  else if containsSub (pys "/送信完了") u then some 6
  else none

/-- `SubmissionVerifier.VALIDATION_ERROR_PATTERNS` searched with
`re.IGNORECASE` against the content: `required` is a literal,
`必須.*入力` is two literals with no newline between, `please\s+enter`
and `invalid\s+email` are two literals separated by whitespace. -/
def validationErrorDetected (content : PyStr) : Bool :=
  containsSub (pys "required") (lowerL content) ||
  inOrderNoNl (pys "必須") (pys "入力") content ||
  wordWsWord (pys "please") (pys "enter") (lowerL content) ||
  wordWsWord (pys "invalid") (pys "email") (lowerL content)

/-- The confirmation-page words of verification Strategy 6. -/
def CONFIRMATION_PAGE_WORDS : List PyStr :=
  [pys "thank", pys "complete", pys "success", pys "confirm", pys "確認", pys "完了"]

/-- An HTTP response as the verifier sees it: status code, final URL and
body text. -/
structure PyResponse where
  statusCode : Nat
  url : PyStr
  text : PyStr
deriving DecidableEq, Repr

/-- Form data is a dictionary of field name/value pairs (the verifier
receives it but never reads it). -/
abbrev FormData := List (PyStr × PyStr)

/-- `min` on the integer score scale, kept as a plain conditional. -/
def iMin (a b : ℤ) : ℤ := if a ≤ b then a else b

/-- `max` on the integer score scale, kept as a plain conditional. -/
def iMax (a b : ℤ) : ℤ := if a ≤ b then b else a

/-- The dictionary returned by `SubmissionVerifier.verify_submission`.
All of the source's float scores are exact multiples of `0.01`, so
`confidence` holds `100 ×` the Python value as an integer: the Python
clamp `max(0.0, min(1.0, score / 100.0))` becomes an exact clamp of the
raw score to `[0, 100]`, and the Python success threshold `0.30` becomes
`30`. -/
structure VerifyResult where
  success : Bool
  confidence : ℤ
  indicators : List PyStr
  warnings : List PyStr
deriving DecidableEq, Repr

/-- The success keywords whose lower-cased text occurs in the
lower-cased content (verification Strategy 3). -/
def foundSuccessKeywords (contentLower : PyStr) : List PyStr :=
  SUCCESS_KEYWORDS.filter (fun kw => containsSub (lowerL kw) contentLower)

/-- The error keywords whose lower-cased text occurs in the lower-cased
content (verification Strategy 4). -/
def foundErrorKeywords (contentLower : PyStr) : List PyStr :=
  ERROR_KEYWORDS.filter (fun kw => containsSub (lowerL kw) contentLower)

/-- Python `', '.join` of the first three entries, for the verifier's
indicator messages. -/
def joinFirstThree : List PyStr → PyStr
  | [] => []
  | [a] => a
  | [a, b] => a ++ pys ", " ++ b
  | a :: b :: c :: _ => a ++ pys ", " ++ b ++ pys ", " ++ c

/-- `SubmissionVerifier.verify_submission` (the non-exceptional path;
the pure model cannot raise).  Scores are kept in the source's 0–100
scale until the final clamp to `[0,1]`.  `formData` is accepted, and
ignored, exactly as in the source. -/
def verify_submission (resp : PyResponse) (formData : FormData) (originalUrl : PyStr) :
    VerifyResult :=
  let _ := formData
  let content := resp.text
  let contentLower := lowerL content
  -- Strategy 1: HTTP status
  let sStatus : ℤ :=
    if 200 ≤ resp.statusCode ∧ resp.statusCode < 300 then 30
    else if 300 ≤ resp.statusCode ∧ resp.statusCode < 400 then 20
    else -40
  let iStatus : List PyStr :=
    if 200 ≤ resp.statusCode ∧ resp.statusCode < 300 then [pys "HTTP 2xx"]
    else if 300 ≤ resp.statusCode ∧ resp.statusCode < 400 then [pys "HTTP 3xx (redirect)"]
    else [pys "HTTP error status"]
  -- Strategy 2: URL change
  let urlChanged := resp.url ≠ originalUrl
  let patIdx := successUrlPatternIdx resp.url
  let sUrl : ℤ :=
    if urlChanged then 10 + (match patIdx with | some _ => (25 : ℤ) | none => 0) else 0
  let iUrl : List PyStr :=
    if urlChanged then
      pys "URL changed" ::
        (match patIdx with
         | some i => [pys "Success URL pattern: " ++ SUCCESS_URL_PATTERN_TEXTS.getD i []]
         | none => [])
    else []
  -- Strategy 3: success keywords
  let foundS := foundSuccessKeywords contentLower
  let sKw : ℤ := if foundS.length > 0 then iMin 40 (10 * foundS.length) else 0
  let iKw : List PyStr :=
    if foundS.length > 0 then [pys "Success keywords: " ++ joinFirstThree foundS] else []
  -- Strategy 4: error keywords
  let foundE := foundErrorKeywords contentLower
  let sErr : ℤ := if foundE.length > 0 then iMin 40 (10 * foundE.length) else 0
  let wErr : List PyStr :=
    if foundE.length > 0 then [pys "Error keywords: " ++ joinFirstThree foundE] else []
  -- Strategy 5: validation errors
  let validation := validationErrorDetected content
  let sVal : ℤ := if validation then 30 else 0
  let wVal : List PyStr := if validation then [pys "Validation error detected"] else []
  -- Strategy 6: form still present
  let formPresent := findFormTag contentLower
  let confirmPage := CONFIRMATION_PAGE_WORDS.any (fun kw => containsSub kw contentLower)
  let sForm : ℤ :=
    if formPresent then
      if confirmPage then 10
      else if resp.url = originalUrl then -25
      else if containsSub (pys "error") (lowerL resp.url) then -30
      else -5
    else 0
  let iForm : List PyStr :=
    if formPresent ∧ confirmPage then [pys "Form on confirmation page (expected)"] else []
  let wForm : List PyStr :=
    if formPresent then
      if confirmPage then []
      else if resp.url = originalUrl then [pys "Form still present on same page"]
      else if containsSub (pys "error") (lowerL resp.url) then [pys "Form on error page"]
      else [pys "Form still present"]
    else []
  let raw : ℤ := sStatus + sUrl + sKw - sErr - sVal + sForm
  let confidence : ℤ := iMax 0 (iMin 100 raw)
  { success := decide ((30 : ℤ) ≤ confidence)
    confidence := confidence
    indicators := iStatus ++ iUrl ++ iKw ++ iForm
    warnings := wErr ++ wVal ++ wForm }

/-- `SubmissionVerifier.verify_submission` as actually run: the hidden
`save_responses` flag and the wall-clock timestamp read by
`_save_response` are passed explicitly, and the written file names are
returned as the side-effect log.  The verification result itself is the
pure `verify_submission`. -/
def verify_submission_run (now : PyStr) (saveResponses : Bool) (resp : PyResponse)
    (formData : FormData) (originalUrl : PyStr) : VerifyResult × List PyStr :=
  let result := verify_submission resp formData originalUrl
  let effects :=
    if saveResponses then
      [now ++ pys "_" ++ originalUrl ++ pys "_" ++
        (if result.success then pys "success" else pys "failed") ++ pys ".html"]
    else []
  (result, effects)

/- ====================================================================
   Retry coordinator
   (FormSubmitter._submit_with_retry_and_intelligence)
   ==================================================================== -/

/-- `FormSubmitter.MAX_RETRIES`. -/
def MAX_RETRIES : Nat := 3

/-- `FormSubmitter.RETRY_DELAY_BASE` in seconds (`5.0`). -/
def RETRY_DELAY_BASE : Nat := 5

/-- `FormSubmitter.RETRY_BACKOFF_MULTIPLIER` (`2.0`). -/
def RETRY_BACKOFF_MULTIPLIER : Nat := 2

/-- `FormSubmitter.RETRYABLE_STATUS_CODES`. -/
def RETRYABLE_STATUS_CODES : List Nat := [408, 429, 500, 502, 503, 504]

/-- The backoff delay slept before retry number `attempt`:
`RETRY_DELAY_BASE * RETRY_BACKOFF_MULTIPLIER ** (attempt - 1)` seconds
(exact, since base and multiplier are integers). -/
def retryDelay (attempt : Nat) : Nat :=
  RETRY_DELAY_BASE * RETRY_BACKOFF_MULTIPLIER ^ (attempt - 1)

/-- A response observed by the retry loop.  `verifConf` is the
confidence (0–100 scale) that `SubmissionVerifier.verify_submission`
assigns to this response — the verifier is a deterministic function of
the response, so the response determines it.  `tag` is an identity
marker so theorems can state *which* response is returned. -/
structure AttemptResponse where
  statusCode : Nat
  verifConf : ℤ
  tag : Nat
deriving DecidableEq, Repr

/-- Outcome of one `_intelligent_submit` call: a response, `None`, a
retryable exception (`Timeout` / `ConnectionError` / `HTTPError`), or
any other exception. -/
inductive AttemptOutcome where
  | resp (r : AttemptResponse)
  | noResponse
  | retryableExc (name : PyStr)
  | nonRetryableExc (name : PyStr)
deriving DecidableEq, Repr

/-- One entry appended to `result.retry_errors`, kept structured instead
of the source's formatted message strings. -/
inductive RetryError where
  | httpRetryable (status : Nat)
  | lowConfidence (conf : ℤ)
  | noResponse
  | exception (name : PyStr)
  | nonRetryable (name : PyStr)
deriving DecidableEq, Repr

/-- The observable bookkeeping of the retry loop: the
`SubmissionResult` fields it mutates (`retry_count`, `retry_errors`),
the backoff delays slept, and the number of `_intelligent_submit`
calls (attempts made). -/
structure RetryState where
  retryCount : Nat
  retryErrors : List RetryError
  delays : List Nat
  calls : Nat
deriving DecidableEq, Repr

/-- The loop of `_submit_with_retry_and_intelligence`.  The fuel
argument only bounds the iteration count (`attempt` grows by one on
every `continue`, and the loop condition is `attempt <= MAX_RETRIES`,
so `MAX_RETRIES + 2` iterations always suffice); the `0`-fuel case is
unreachable from `submit_with_retry`. -/
def retryGo (f : Nat → AttemptOutcome) :
    Nat → Nat → Option AttemptResponse → ℤ → RetryState →
    Option AttemptResponse × RetryState
  | 0, _, best, _, st => (best, st)
  | fuel + 1, attempt, best, bestConf, st =>
    if MAX_RETRIES < attempt then (best, st)
    else
      let st := if 0 < attempt then
          { st with delays := st.delays ++ [retryDelay attempt], retryCount := attempt }
        else st
      let st := { st with calls := st.calls + 1 }
      match f attempt with
      | .resp r =>
        if RETRYABLE_STATUS_CODES.contains r.statusCode then
          retryGo f fuel (attempt + 1) best bestConf
            { st with retryErrors := st.retryErrors ++ [.httpRetryable r.statusCode] }
        else if r.statusCode = 200 then
          let best' := if bestConf < r.verifConf then some r else best
          let bestConf' := if bestConf < r.verifConf then r.verifConf else bestConf
          if r.verifConf < 30 ∧ attempt < MAX_RETRIES then
            retryGo f fuel (attempt + 1) best' bestConf'
              { st with retryErrors := st.retryErrors ++ [.lowConfidence r.verifConf] }
          else (some r, st)
        else (some r, st)
      | .noResponse =>
        retryGo f fuel (attempt + 1) best bestConf
          { st with retryErrors := st.retryErrors ++ [.noResponse] }
      | .retryableExc n =>
        retryGo f fuel (attempt + 1) best bestConf
          { st with retryErrors := st.retryErrors ++ [.exception n] }
      | .nonRetryableExc n =>
        (best, { st with retryErrors := st.retryErrors ++ [.nonRetryable n] })

/-- `FormSubmitter._submit_with_retry_and_intelligence`, with the
sequence of `_intelligent_submit` outcomes abstracted as the function
`f : attempt index → outcome`. -/
def submit_with_retry (f : Nat → AttemptOutcome) : Option AttemptResponse × RetryState :=
  retryGo f (MAX_RETRIES + 2) 0 none 0 ⟨0, [], [], 0⟩

/- ====================================================================
   FormAnalyzer._calculate_confidence
   (src/crawler/submit_form/form_analyzer.py)
   ==================================================================== -/

/-- One analyzed form field, restricted to what
`_calculate_confidence` reads. -/
structure FormFieldM where
  name : PyStr
  required : Bool
deriving DecidableEq, Repr

/-- A `FormAnalysis`, restricted to the fields the verified code paths
read.  `form_action` is `''` when absent (the analyzer stores the
resolved absolute URL or the empty string). -/
structure FormAnalysisM where
  url : PyStr
  form_action : PyStr
  form_method : PyStr
  fields : List FormFieldM
  hidden_fields : List (PyStr × PyStr)
  has_captcha : Bool
  captcha_type : Option PyStr
  submission_type : PyStr
deriving DecidableEq, Repr

/-- The key-field keywords of `_calculate_confidence`. -/
def KEY_FIELD_KEYWORDS : List PyStr := [pys "email", pys "mail", pys "message", pys "content"]

/-- `FormAnalyzer._calculate_confidence` on the 0–100 scale (the source
divides by 100 and clamps to `[0,1]`; here the raw score is clamped to
`[0,100]`, an exact rescaling).  The source joins the *set* of
lower-cased field names with spaces and substring-tests the keywords;
since no keyword contains a space, this is equivalent to the join of
the list used here. -/
def calculate_confidence (a : FormAnalysisM) : ℤ :=
  let s : ℤ := if a.form_action.isEmpty then 10 else 30
  let req := (a.fields.filter (·.required)).length
  let s := s + (if 0 < req then iMin 20 (req * 5) else 0)
  let joined := joinSp (a.fields.map (fun f => lowerL f.name))
  let s := s + (if KEY_FIELD_KEYWORDS.any (fun k => containsSub k joined) then 20 else 0)
  let s := s + (if a.has_captcha then -10 else 20)
  let s := s + (if a.submission_type = pys "standard" then 10
                else if a.submission_type = pys "ajax" then 5 else -5)
  let s := s + (if a.hidden_fields.isEmpty then 0 else 10)
  iMax 0 (iMin 100 s)

/- ====================================================================
   EnhancedContactFormDetector._score_candidates
   (src/crawler/extractors/enhanced_contact_form_detector.py)
   ==================================================================== -/

/-- A `FormCandidate`, restricted to what `_score_candidates` reads. -/
structure FormCandidateM where
  url : PyStr
  detection_method : PyStr
  has_email_field : Bool
  has_phone_field : Bool
  has_name_field : Bool
  has_message_field : Bool
  has_company_field : Bool
  has_subject_field : Bool
  text_fields : Nat
  textareas : Nat
  required_fields : Nat
  keywords_found : List PyStr
  submit_button_text : Option PyStr
  form_method : PyStr
deriving DecidableEq, Repr

/-- The URL words granting the strong URL bonus in `_score_candidates`. -/
def CONTACT_URL_WORDS : List PyStr :=
  [pys "contact", pys "inquiry", pys "form", pys "otoiawase", pys "toiawase"]

/-- The submit-button words of `_score_candidates`. -/
def SUBMIT_BUTTON_WORDS : List PyStr :=
  [pys "send", pys "送信", pys "submit", pys "確認", pys "confirm"]

/-- The detection methods granting the strong detection bonus. -/
def STRONG_DETECTION_METHODS : List PyStr :=
  [pys "pattern_match", pys "top_priority_fallback", pys "high_priority_fallback",
   pys "parameter_link"]

/-- The body of `EnhancedContactFormDetector._score_candidates` for one
candidate, on the 0–100 scale: the Python
`max(0.1, min(1.0, score / 100.0))` becomes an exact clamp to
`[10, 100]`. -/
def score_candidate (c : FormCandidateM) : ℤ :=
  let s : ℤ := 10
  let s := s + (if c.has_email_field then 30 else 0)
  let s := s + (if c.has_message_field then 25 else 0)
  let s := s + (if c.has_name_field then 15 else 0)
  let s := s + (if c.has_phone_field then 10 else 0)
  let s := s + (if c.has_company_field then 8 else 0)
  let s := s + (if c.has_subject_field then 5 else 0)
  let s := s + (if 1 ≤ c.text_fields then 8 else 0)
  let s := s + (if 1 ≤ c.textareas then 5 else 0)
  let s := s + (if c.keywords_found.isEmpty then 0
                else iMin (c.keywords_found.length * 5) 20)
  let s := s + (if CONTACT_URL_WORDS.any (fun w => containsSub w (lowerL c.url)) then 25 else 0)
  let s := s + (match c.submit_button_text with
                | some t =>
                  if ¬ t.isEmpty ∧ SUBMIT_BUTTON_WORDS.any (fun w => containsSub w (lowerL t))
                  then 15 else 0
                | none => 0)
  let s := s + (if c.form_method = pys "POST" then 10 else 0)
  let s := s + (if 2 ≤ c.required_fields then 8 else 0)
  let s := s + (if STRONG_DETECTION_METHODS.contains c.detection_method then 40
                else if c.detection_method = pys "site_crawl" then 20 else 0)
  iMax 10 (iMin 100 s)

/- ====================================================================
   FormSubmissionPipeline.submit_to_form and
   FormSubmissionService.submit_inquiry
   ==================================================================== -/

/-- The fields of `SubmissionResult` that the CAPTCHA path reads. -/
structure SubResultM where
  success : Bool
  form_url : PyStr
  error : Option PyStr
deriving DecidableEq, Repr

/-- `FormSubmissionPipeline.submit_to_form`, parametrized by the
analyzer's outcome and by the strategy engine
(`FormSubmitter.submit_form`) as a function argument; the second
component counts how often the strategy engine was invoked. -/
def submit_to_form (analysis : Option FormAnalysisM) (form_url : PyStr)
    (submitForm : FormAnalysisM → SubResultM) : SubResultM × Nat :=
  match analysis with
  | none =>
    ({ success := false, form_url := form_url,
       error := some (pys "Could not analyze form") }, 0)
  | some a =>
    if a.has_captcha then
      ({ success := false, form_url := form_url,
         error := some (pys "Form has " ++ a.captcha_type.getD (pys "None") ++
           pys " - cannot submit") }, 0)
    else (submitForm a, 1)

/-- The CAPTCHA-type extraction of `FormSubmissionService.submit_inquiry`
from the pipeline error message. -/
def extract_captcha_type (err : PyStr) : PyStr :=
  let e := lowerL err
  if containsSub (pys "recaptcha v2") e then pys "recaptcha_v2"
  else if containsSub (pys "recaptcha v3") e then pys "recaptcha_v3"
  else if containsSub (pys "hcaptcha") e then pys "hcaptcha"
  else if containsSub (pys "image") e then pys "image"
  else pys "unknown"

/-- The outcome classification of `FormSubmissionService.submit_inquiry`
once the pipeline has returned: the reported `submission_status`,
whether the form was added to the CAPTCHA queue, and the captcha type
recorded (`none` when nothing was queued).  The source's test is
`submission_result.error and 'captcha' in submission_result.error.lower()`. -/
def submit_inquiry_outcome (sr : SubResultM) : PyStr × Bool × Option PyStr :=
  match sr.error with
  | some e =>
    if ¬ e.isEmpty ∧ containsSub (pys "captcha") (lowerL e) then
      (pys "captcha_blocked", true, some (extract_captcha_type e))
    else ((if sr.success then pys "success" else pys "failed"), false, none)
  | none => ((if sr.success then pys "success" else pys "failed"), false, none)

/- ====================================================================
   EnhancedContactFormDetector.detect_contact_form cascade
   ==================================================================== -/

/-- The outcome of `PageFetcher.fetch_page`: `(content, status,
final_url)`; the error component is never read on the modelled paths. -/
structure FetchOut where
  content : Option PyStr
  status : Nat
  finalUrl : Option PyStr

/-- The detector's collaborators: the page fetcher and the robots-policy
check (`robots_checker.is_allowed(url, "respect")`). -/
structure DetectEnv where
  fetch : PyStr → FetchOut
  robots : PyStr → Bool

/-- Python `a or b` for an optional string: `None` and `''` fall through
to the default. -/
def pyOrStr (o : Option PyStr) (d : PyStr) : PyStr :=
  match o with
  | some s => if s.isEmpty then d else s
  | none => d

/-- The part of the detector's result dictionary the claims are about:
the form URL and the recorded detection method. -/
structure DetectResultM where
  form_url : PyStr
  detection_method : PyStr
deriving DecidableEq, Repr

/-- `EnhancedContactFormDetector.TOP_PRIORITY_FALLBACK_URLS`. -/
def TOP_PRIORITY_FALLBACK_URLS : List PyStr :=
  [pys "/contact", pys "/contact/", pys "/contact/mailform", pys "/contact/mailform/",
   pys "/contact/contact.html", pys "/contact/inquiry.html", pys "/inquiry", pys "/inquiry/"]

/-- `EnhancedContactFormDetector.HIGH_PRIORITY_FALLBACK_URLS`. -/
def HIGH_PRIORITY_FALLBACK_URLS : List PyStr :=
  [pys "/contact.html", pys "/contact.php", pys "/inquiry.html", pys "/inquiry.php",
   pys "/form", pys "/form.html"]

/-- `EnhancedContactFormDetector.MEDIUM_PRIORITY_FALLBACK_URLS`. -/
def MEDIUM_PRIORITY_FALLBACK_URLS : List PyStr :=
  [pys "/contact.htm", pys "/inquiry.htm", pys "/contact/index.html", pys "/contact/index.htm",
   pys "/inquiry/index.html", pys "/form.php", pys "/contact-us", pys "/contact_us",
   pys "/inquiry-form"]

/-- `EnhancedContactFormDetector.LOW_PRIORITY_FALLBACK_URLS`. -/
def LOW_PRIORITY_FALLBACK_URLS : List PyStr :=
  [pys "/お問い合わせ", pys "/otoiawase", pys "/toiawase", pys "/contact.aspx",
   pys "/inquiry.aspx"]

/-- `EnhancedContactFormDetector._try_fallback_list`: probe each path in
order (robots check first, then fetch, then require HTTP 200 and a
`'<form' in content.lower()` hit) and return immediately on the first
success, recording `final_url or fallback_url` and the
`{priority}_fallback` detection method. -/
def try_fallback_list (env : DetectEnv) (base : PyStr) (priority : PyStr) :
    List PyStr → Option DetectResultM
  | [] => none
  | p :: rest =>
    let url := base ++ p
    if env.robots url = false then try_fallback_list env base priority rest
    else
      match (env.fetch url).content with
      | none => try_fallback_list env base priority rest
      | some c =>
        if c.isEmpty then try_fallback_list env base priority rest
        else if (env.fetch url).status ≠ 200 then try_fallback_list env base priority rest
        else if containsSub (pys "<form") (lowerL c) = false then
          try_fallback_list env base priority rest
        else some ⟨pyOrStr (env.fetch url).finalUrl url, priority ++ pys "_fallback"⟩

/-- `EnhancedContactFormDetector.detect_contact_form`: the prioritized
cascade.  `base` is `scheme://netloc` of the root URL.  The
parameter-link tier (step 3) and the site-crawl tier (step 6), whose
internals no claim touches, are abstracted as the collaborator
functions `paramStep` and `crawlStep`.  The second component counts
the invocations of the crawl tier. -/
def detect_contact_form (env : DetectEnv) (base : PyStr)
    (paramStep : Unit → Option DetectResultM) (crawlStep : Unit → Option DetectResultM) :
    Option DetectResultM × Nat :=
  match try_fallback_list env base (pys "top_priority") TOP_PRIORITY_FALLBACK_URLS with
  | some r => (some r, 0)
  | none =>
    match try_fallback_list env base (pys "high_priority") HIGH_PRIORITY_FALLBACK_URLS with
    | some r => (some r, 0)
    | none =>
      match paramStep () with
      | some r => (some r, 0)
      | none =>
        match try_fallback_list env base (pys "medium_priority") MEDIUM_PRIORITY_FALLBACK_URLS with
        | some r => (some r, 0)
        | none =>
          match try_fallback_list env base (pys "low_priority") LOW_PRIORITY_FALLBACK_URLS with
          | some r => (some r, 0)
          | none =>
            match crawlStep () with
            | some r => (some r, 1)
            | none => (none, 1)

/-- One probe of `_try_fallback_list` succeeds: robots allows the URL,
the fetch returns non-empty content with HTTP 200, and the content
contains `<form`. -/
def probeOk (env : DetectEnv) (base p : PyStr) : Bool :=
  env.robots (base ++ p) &&
    (match (env.fetch (base ++ p)).content with
     | none => false
     | some c =>
       !c.isEmpty && (env.fetch (base ++ p)).status == 200 &&
         containsSub (pys "<form") (lowerL c))

/-- The result `_try_fallback_list` builds for a successful probe. -/
def probeResult (env : DetectEnv) (base p priority : PyStr) : DetectResultM :=
  ⟨pyOrStr (env.fetch (base ++ p)).finalUrl (base ++ p), priority ++ pys "_fallback"⟩

/- ====================================================================
   CaptchaQueueManager (src/crawler/captcha_queue_manager.py)
   ==================================================================== -/

/-- `CaptchaForm`. -/
structure CaptchaForm where
  url : PyStr
  form_url : PyStr
  captcha_type : PyStr
  company_name : Option PyStr
  email : Option PyStr
  discovered_at : PyStr
  status : PyStr
  notes : Option PyStr
  form_action : Option PyStr
  form_method : PyStr
  required_fields : List PyStr
deriving DecidableEq, Repr

/-- `CaptchaQueueManager.add_form`: append a fresh `pending` entry; `now`
is the `datetime.utcnow().isoformat()` timestamp `__post_init__` fills
into `discovered_at`. -/
def add_form (queue : List CaptchaForm) (url form_url captcha_type : PyStr)
    (company_name email form_action : Option PyStr) (form_method : PyStr)
    (required_fields : List PyStr) (notes : Option PyStr) (now : PyStr) : List CaptchaForm :=
  queue ++ [{ url := url, form_url := form_url, captcha_type := captcha_type,
              company_name := company_name, email := email, discovered_at := now,
              status := pys "pending", notes := notes, form_action := form_action,
              form_method := form_method, required_fields := required_fields }]

/-- `CaptchaQueueManager.update_status`: mutate the first entry whose
`form_url` equals the argument (`get_form_by_url` returns the first
match); the notes are replaced only when a non-empty note is given
(Python `if notes:`).  Returns whether an entry was found, together
with the updated queue. -/
def update_status (queue : List CaptchaForm) (form_url status : PyStr) (notes : Option PyStr) :
    Bool × List CaptchaForm :=
  match queue with
  | [] => (false, [])
  | f :: rest =>
    if f.form_url = form_url then
      (true, { f with
               status := status,
               notes := (match notes with
                         | some n => if n.isEmpty then f.notes else some n
                         | none => f.notes) } :: rest)
    else
      let r := update_status rest form_url status notes
      (r.1, f :: r.2)

/-- `CaptchaQueueManager.get_pending_forms`. -/
def get_pending_forms (queue : List CaptchaForm) : List CaptchaForm :=
  queue.filter (fun f => f.status == pys "pending")

/-- One row of `export_pending_to_csv`, with the eleven CSV columns. -/
structure CsvRow where
  urlCol : PyStr
  formUrlCol : PyStr
  captchaTypeCol : PyStr
  companyNameCol : PyStr
  emailCol : PyStr
  formActionCol : PyStr
  formMethodCol : PyStr
  requiredFieldsCol : PyStr
  discoveredAtCol : PyStr
  statusCol : PyStr
  notesCol : PyStr
deriving DecidableEq, Repr

/-- Python `', '.join`. -/
def joinCommaSp : List PyStr → PyStr
  | [] => []
  | [a] => a
  | a :: rest => a ++ pys ", " ++ joinCommaSp rest

/-- The CSV row written for one pending entry. -/
def csvRowOf (f : CaptchaForm) : CsvRow :=
  { urlCol := f.url, formUrlCol := f.form_url, captchaTypeCol := f.captcha_type,
    companyNameCol := f.company_name.getD [], emailCol := f.email.getD [],
    formActionCol := f.form_action.getD [], formMethodCol := f.form_method,
    requiredFieldsCol := if f.required_fields.isEmpty then [] else joinCommaSp f.required_fields,
    discoveredAtCol := f.discovered_at, statusCol := f.status,
    notesCol := f.notes.getD [] }

/-- `CaptchaQueueManager.export_pending_to_csv`: `none` models the
`return None` taken when there is nothing to export, otherwise the
rows written, in queue order. -/
def export_pending_to_csv (queue : List CaptchaForm) : Option (List CsvRow) :=
  let pending := get_pending_forms queue
  if pending.isEmpty then none else some (pending.map csvRowOf)

/- ====================================================================
   Proof-side shape predicates and abbreviations
   ==================================================================== -/

/-- The site used by the claim C8 witness: every TOP path before
`/inquiry/` answers 404, `/inquiry/` answers 200 with a form, and the
abstract crawl tier would find a different, deeper form page. -/
def c8SiteEnv : DetectEnv :=
  { fetch := fun u =>
      if u = pys "https://example.jp/inquiry/" then
        ⟨some (pys "<form action=\"/inquiry/send\"></form>"), 200, none⟩
      else ⟨none, 404, none⟩
    robots := fun _ => true }

/-- A string with no leading or trailing whitespace (the shape of every
`str.strip()` result). -/
def noEdgeSpace (l : PyStr) : Prop :=
  (∀ c ∈ l.head?, pyIsSpace c = false) ∧ (∀ c ∈ l.getLast?, pyIsSpace c = false)

/-- The head, if any, is not whitespace. -/
def headNotSpace : PyStr → Bool
  | [] => true
  | d :: _ => !pyIsSpace d

/-- Canonical whitespace shape: every whitespace character is a single
`' '` followed by a non-space character. -/
def wsCanonical : PyStr → Bool
  | [] => true
  | c :: cs => (!pyIsSpace c || (c == ' ' && headNotSpace cs)) && wsCanonical cs

/-- The shape of `str.split()` results: non-empty words without
whitespace. -/
def goodWords (ws : List PyStr) : Prop :=
  ∀ w ∈ ws, w ≠ [] ∧ ∀ c ∈ w, pyIsSpace c = false

/-- Both word-level formatters (`_format_name`, `_format_company`) share
this shape: collapse whitespace, strip, pass Japanese text through,
otherwise re-join the per-word image. -/
def wordwiseFmt (φ : PyStr → PyStr) (x : PyStr) : PyStr :=
  let s := collapseWs (stripL x)
  if containsJapanese s then s else joinSp ((pySplit s).map φ)

/-- Scanner invariant for `collapseNl`: with `run` newlines immediately
before, every maximal newline run of the remainder stays within two. -/
def nlShortRuns : Nat → PyStr → Bool
  | _, [] => true
  | run, c :: cs =>
    if c = '\n' then decide (run + 1 ≤ 2) && nlShortRuns (run + 1) cs
    else nlShortRuns 0 cs

/- ====================================================================
   Lemma toolkit for the string model
   ==================================================================== -/

theorem startsWithL_iff (n : PyStr) : ∀ h : PyStr, startsWithL n h = true ↔ n <+: h := by
  induction n with
  | nil => intro h; rw [show startsWithL [] h = true from rfl]; simp
  | cons a as ih =>
    intro h
    cases h with
    | nil =>
      rw [show startsWithL (a :: as) [] = false from rfl]
      simp
    | cons b bs =>
      rw [show startsWithL (a :: as) (b :: bs) = (a == b && startsWithL as bs) from rfl,
        List.cons_prefix_cons]
      simp [ih bs]

theorem containsSub_iff (n : PyStr) (h : PyStr) : containsSub n h = true ↔ n <:+: h := by
  induction h with
  | nil =>
    rw [show containsSub n [] = startsWithL n [] from rfl, startsWithL_iff]
    simp [List.infix_nil, List.prefix_nil]
  | cons c cs ih =>
    rw [show containsSub n (c :: cs) = (startsWithL n (c :: cs) || containsSub n cs) from rfl,
      List.infix_cons_iff]
    simp [startsWithL_iff, ih]

theorem endsWithL_iff (n l : PyStr) : endsWithL n l = true ↔ n <:+ l := by
  rw [endsWithL, startsWithL_iff, List.reverse_prefix]

theorem iMin_le_right (a b : ℤ) : iMin a b ≤ b := by unfold iMin; split <;> omega

theorem iMin_le_left (a b : ℤ) : iMin a b ≤ a := by unfold iMin; split <;> omega

theorem le_iMax_left (a b : ℤ) : a ≤ iMax a b := by unfold iMax; split <;> omega

theorem le_iMax_right (a b : ℤ) : b ≤ iMax a b := by unfold iMax; split <;> omega

theorem iMax_le (a b c : ℤ) (h1 : a ≤ c) (h2 : b ≤ c) : iMax a b ≤ c := by
  unfold iMax; split <;> omega

theorem le_iMin (a b c : ℤ) (h1 : c ≤ a) (h2 : c ≤ b) : c ≤ iMin a b := by
  unfold iMin; split <;> omega

/- ====================================================================
   Claim C7
   ==================================================================== -/

/-- Claim C7: every confidence the program produces is clamped into the
unit interval.  On the model's exact 0–100 integer scale (100 × the
Python float), the verifier's confidence, the analyzer's confidence and
the detector's candidate score all lie in `[0, 100]`, i.e. the Python
values lie in `[0, 1]`. -/
theorem confidences_clamped :
    (∀ (resp : PyResponse) (d : FormData) (u : PyStr),
      0 ≤ (verify_submission resp d u).confidence ∧
        (verify_submission resp d u).confidence ≤ 100) ∧
    (∀ a : FormAnalysisM,
      0 ≤ calculate_confidence a ∧ calculate_confidence a ≤ 100) ∧
    (∀ c : FormCandidateM,
      0 ≤ score_candidate c ∧ score_candidate c ≤ 100) := by
  refine ⟨fun resp d u => ?_, fun a => ?_, fun c => ?_⟩
  · simp only [verify_submission]
    exact ⟨le_iMax_left _ _, iMax_le _ _ _ (by omega) (iMin_le_left _ _)⟩
  · simp only [calculate_confidence]
    exact ⟨le_iMax_left _ _, iMax_le _ _ _ (by omega) (iMin_le_left _ _)⟩
  · simp only [score_candidate]
    exact ⟨le_trans (by omega) (le_iMax_left _ _),
      iMax_le _ _ _ (by omega) (iMin_le_left _ _)⟩

/- ====================================================================
   Claim C6
   ==================================================================== -/

/-- Claim C6: the verifier is deterministic.  The model passes the
wall-clock timestamp and the hidden `save_responses` flag explicitly;
the verification result is independent of both and of the `form_data`
argument (which the source receives but never reads), so identical
`(response, original_url)` inputs always produce the identical
`(success, confidence, indicators, warnings)` quadruple. -/
theorem verify_submission_deterministic (now1 now2 : PyStr) (save1 save2 : Bool)
    (resp : PyResponse) (d1 d2 : FormData) (u : PyStr) :
    (verify_submission_run now1 save1 resp d1 u).1 =
      (verify_submission_run now2 save2 resp d2 u).1 := rfl

/- ====================================================================
   Claim C1
   ==================================================================== -/

/-- Claim C1 (code bug): for a `FormAnalysis` with `has_captcha = true`
and `captcha_type = 'image'`, the pipeline does return a failed
`SubmissionResult` without invoking the strategy engine (second
component `0`), but the orchestrator classifies the outcome as
`failed` with nothing queued — not the claimed `captcha_blocked` —
because the pipeline's error text `"Form has image - cannot submit"`
does not contain the substring `"captcha"` that
`FormSubmissionService.submit_inquiry` gates on (which also makes that
function's own `'image'` captcha-type extraction branch unreachable). -/
theorem captcha_image_not_queued :
    submit_to_form
        (some ⟨pys "https://example.jp/contact", [], pys "POST", [], [], true,
          some (pys "image"), pys "standard"⟩)
        (pys "https://example.jp/contact")
        (fun _ => ⟨true, [], none⟩) =
      (⟨false, pys "https://example.jp/contact",
        some (pys "Form has image - cannot submit")⟩, 0) ∧
    submit_inquiry_outcome
        ⟨false, pys "https://example.jp/contact",
          some (pys "Form has image - cannot submit")⟩ =
      (pys "failed", false, none) := by
  exact ⟨by decide, by decide⟩

/-- Claim C2: on the outcome sequence 503, 503, then 200 with verified
confidence `0.5` (= 50 on the 0–100 scale), the retry coordinator makes
exactly 3 attempts (`calls = 3`), sleeps the backoff delays
`5 * 2 ** (attempt-1)` — 5 s before the second attempt and 10 s before
the third — and returns the 200 response. -/
theorem retry_503_503_200 (f : Nat → AttemptOutcome) (r0 r1 r2 : AttemptResponse)
    (h0 : f 0 = .resp r0) (hs0 : r0.statusCode = 503)
    (h1 : f 1 = .resp r1) (hs1 : r1.statusCode = 503)
    (h2 : f 2 = .resp r2) (hs2 : r2.statusCode = 200) (hc2 : r2.verifConf = 50) :
    submit_with_retry f =
      (some r2, ⟨2, [.httpRetryable 503, .httpRetryable 503], [5, 10], 3⟩) ∧
    retryDelay 1 = 5 ∧ retryDelay 2 = 10 := by
  refine ⟨?_, by decide, by decide⟩
  simp only [submit_with_retry, MAX_RETRIES]
  simp only [retryGo, h0, h1, h2, hs0, hs1, hs2, hc2]
  norm_num [RETRYABLE_STATUS_CODES, retryDelay, RETRY_DELAY_BASE, RETRY_BACKOFF_MULTIPLIER,
    MAX_RETRIES]

/-- Claim C2 witness: the theorem applied to a concrete outcome
sequence. -/
theorem retry_503_503_200_witness :
    submit_with_retry (fun n => match n with
      | 0 => .resp ⟨503, 0, 0⟩
      | 1 => .resp ⟨503, 0, 1⟩
      | _ => .resp ⟨200, 50, 2⟩) =
      (some ⟨200, 50, 2⟩, ⟨2, [.httpRetryable 503, .httpRetryable 503], [5, 10], 3⟩) ∧
    retryDelay 1 = 5 ∧ retryDelay 2 = 10 :=
  retry_503_503_200 (fun n => match n with
      | 0 => .resp ⟨503, 0, 0⟩
      | 1 => .resp ⟨503, 0, 1⟩
      | _ => .resp ⟨200, 50, 2⟩)
    ⟨503, 0, 0⟩ ⟨503, 0, 1⟩ ⟨200, 50, 2⟩ rfl rfl rfl rfl rfl rfl rfl

/-- Claim C3: when every attempt yields HTTP 500, the coordinator stops
after 4 attempts (1 initial + `MAX_RETRIES = 3` retries), returns
nothing, and leaves `retry_count = 3` (never above `MAX_RETRIES`) with
exactly 4 entries in `retry_errors`. -/
theorem retry_all_500 (f : Nat → AttemptOutcome)
    (h : ∀ n, n ≤ MAX_RETRIES → ∃ r : AttemptResponse, f n = .resp r ∧ r.statusCode = 500) :
    (submit_with_retry f).1 = none ∧
    (submit_with_retry f).2.retryCount = 3 ∧
    (submit_with_retry f).2.retryCount ≤ MAX_RETRIES ∧
    (submit_with_retry f).2.retryErrors.length = 4 ∧
    (submit_with_retry f).2.calls = 4 := by
  obtain ⟨ra, ha, hsa⟩ := h 0 (by decide)
  obtain ⟨rb, hb, hsb⟩ := h 1 (by decide)
  obtain ⟨rc, hc, hsc⟩ := h 2 (by decide)
  obtain ⟨rd, hd, hsd⟩ := h 3 (by decide)
  simp only [submit_with_retry, MAX_RETRIES]
  simp only [retryGo, ha, hb, hc, hd, hsa, hsb, hsc, hsd]
  norm_num [RETRYABLE_STATUS_CODES, retryDelay, RETRY_DELAY_BASE, RETRY_BACKOFF_MULTIPLIER,
    MAX_RETRIES]

/-- Claim C3 witness: the theorem applied to the constant-500 outcome
sequence. -/
theorem retry_all_500_witness :
    (submit_with_retry (fun _ => .resp ⟨500, 0, 0⟩)).1 = none ∧
    (submit_with_retry (fun _ => .resp ⟨500, 0, 0⟩)).2.retryCount = 3 ∧
    (submit_with_retry (fun _ => .resp ⟨500, 0, 0⟩)).2.retryCount ≤ MAX_RETRIES ∧
    (submit_with_retry (fun _ => .resp ⟨500, 0, 0⟩)).2.retryErrors.length = 4 ∧
    (submit_with_retry (fun _ => .resp ⟨500, 0, 0⟩)).2.calls = 4 :=
  retry_all_500 (fun _ => .resp ⟨500, 0, 0⟩) (fun _ _ => ⟨⟨500, 0, 0⟩, rfl, rfl⟩)

theorem try_fallback_cons (env : DetectEnv) (base priority p : PyStr) (rest : List PyStr) :
    try_fallback_list env base priority (p :: rest) =
      if probeOk env base p then some (probeResult env base p priority)
      else try_fallback_list env base priority rest := by
  simp only [try_fallback_list]
  cases hr : env.robots (base ++ p)
  · simp [probeOk, hr]
  · cases hcon : (env.fetch (base ++ p)).content with
    | none => simp [probeOk, hr, hcon]
    | some c =>
      by_cases hemp : c.isEmpty <;>
        by_cases hst : (env.fetch (base ++ p)).status = 200 <;>
        by_cases hform : containsSub (pys "<form") (lowerL c) = true <;>
        simp [probeOk, probeResult, hr, hcon, hemp, hst, hform]

theorem try_fallback_append_fail (env : DetectEnv) (base priority : PyStr)
    (pre l : List PyStr) (h : ∀ q ∈ pre, probeOk env base q = false) :
    try_fallback_list env base priority (pre ++ l) = try_fallback_list env base priority l := by
  induction pre with
  | nil => rfl
  | cons q qs ih =>
    rw [List.cons_append, try_fallback_cons, if_neg, ih]
    · intro x hx
      exact h x (List.mem_cons_of_mem q hx)
    · simp [h q (List.mem_cons_self q qs)]

/-- Claim C8: when a TOP-priority fixed path `p` is the first probed
path whose fetched page passes the probe (robots allowed, HTTP 200,
non-empty content containing `<form`), `detect_contact_form` returns
that probe's URL with detection method `top_priority_fallback` and the
site-crawl tier is invoked zero times — for every behaviour of the
deeper tiers, in particular when a crawlable page would also expose a
form. -/
theorem top_priority_short_circuits (env : DetectEnv) (base : PyStr)
    (paramStep crawlStep : Unit → Option DetectResultM)
    (pre post : List PyStr) (p : PyStr)
    (hsplit : TOP_PRIORITY_FALLBACK_URLS = pre ++ p :: post)
    (hpre : ∀ q ∈ pre, probeOk env base q = false)
    (hp : probeOk env base p = true) :
    detect_contact_form env base paramStep crawlStep =
      (some (probeResult env base p (pys "top_priority")), 0) := by
  have htop : try_fallback_list env base (pys "top_priority") TOP_PRIORITY_FALLBACK_URLS =
      some (probeResult env base p (pys "top_priority")) := by
    rw [hsplit, try_fallback_append_fail env base _ pre _ hpre, try_fallback_cons, if_pos hp]
  rw [detect_contact_form, htop]

/-- Claim C8 witness: the theorem applied to `c8SiteEnv`, with
`/inquiry/` the last TOP-priority path and a crawl tier that would
return a deeper page. -/
theorem top_priority_short_circuits_witness :
    detect_contact_form c8SiteEnv (pys "https://example.jp")
        (fun _ => none)
        (fun _ => some ⟨pys "https://example.jp/deep/page", pys "site_crawl"⟩) =
      (some ⟨pys "https://example.jp/inquiry/", pys "top_priority_fallback"⟩, 0) := by
  have h := top_priority_short_circuits c8SiteEnv (pys "https://example.jp")
    (fun _ => none)
    (fun _ => some ⟨pys "https://example.jp/deep/page", pys "site_crawl"⟩)
    [pys "/contact", pys "/contact/", pys "/contact/mailform", pys "/contact/mailform/",
     pys "/contact/contact.html", pys "/contact/inquiry.html", pys "/inquiry"]
    [] (pys "/inquiry/") (by decide) (by decide) (by decide)
  exact h.trans (by decide)

theorem update_status_append_not_found (q l : List CaptchaForm) (u status : PyStr)
    (notes : Option PyStr) (h : ∀ f ∈ q, f.form_url ≠ u) :
    update_status (q ++ l) u status notes =
      ((update_status l u status notes).1, q ++ (update_status l u status notes).2) := by
  induction q with
  | nil => simp [update_status]
  | cons f fs ih =>
    rw [List.cons_append]
    simp only [update_status, if_neg (h f (List.mem_cons_self f fs))]
    rw [ih (fun x hx => h x (List.mem_cons_of_mem f hx))]
    simp

theorem export_rows_form_urls (q : List CaptchaForm) :
    ((export_pending_to_csv q).getD []).map (·.formUrlCol) =
      (get_pending_forms q).map (·.form_url) := by
  rw [export_pending_to_csv]
  by_cases h : (get_pending_forms q).isEmpty
  · simp [h, List.isEmpty_iff.mp h]
  · simp [h, List.map_map]
    exact fun a _ => rfl

/-- Claim C9 counterexample: with a queue already holding a pending
entry for the same form URL (`add_form` appends without deduplicating,
so such states arise from the queue's own operations), adding the form
again and running `update_status(form_url, 'completed')` — which
succeeds, returning `True` — completes only the *first* matching entry,
and `get_pending_forms()` still contains an entry with that form URL. -/
theorem captcha_queue_duplicate_counterexample :
    (update_status
        (add_form
          (add_form [] (pys "https://a.jp") (pys "https://a.jp/contact") (pys "recaptcha_v2")
            none none none (pys "POST") [] none (pys "2025-01-01T00:00:00"))
          (pys "https://a.jp") (pys "https://a.jp/contact") (pys "recaptcha_v2")
          none none none (pys "POST") [] none (pys "2025-01-01T00:01:00"))
        (pys "https://a.jp/contact") (pys "completed") none).1 = true ∧
    (get_pending_forms
      (update_status
        (add_form
          (add_form [] (pys "https://a.jp") (pys "https://a.jp/contact") (pys "recaptcha_v2")
            none none none (pys "POST") [] none (pys "2025-01-01T00:00:00"))
          (pys "https://a.jp") (pys "https://a.jp/contact") (pys "recaptcha_v2")
          none none none (pys "POST") [] none (pys "2025-01-01T00:01:00"))
        (pys "https://a.jp/contact") (pys "completed") none).2).any
      (fun f => f.form_url == pys "https://a.jp/contact") = true := by
  exact ⟨by decide, by decide⟩

/-- Claim C9 (amended): for every queue state holding **no** entry with
form URL `fu`, after `add_form` creates the entry and
`update_status(fu, 'completed')` succeeds (updating the first — here
only — entry matching `fu`), `get_pending_forms()` contains no entry
with `form_url = fu`, and the Form URL column of
`export_pending_to_csv` holds exactly the `form_url` values of the
remaining pending entries. -/
theorem captcha_queue_pending_excludes (q0 : List CaptchaForm)
    (url fu ct : PyStr) (cn em fa : Option PyStr) (fm : PyStr) (rf : List PyStr)
    (nt : Option PyStr) (now : PyStr)
    (h : ∀ f ∈ q0, f.form_url ≠ fu) :
    (update_status (add_form q0 url fu ct cn em fa fm rf nt now) fu
        (pys "completed") none).1 = true ∧
    (∀ f ∈ get_pending_forms
        (update_status (add_form q0 url fu ct cn em fa fm rf nt now) fu
          (pys "completed") none).2,
      f.form_url ≠ fu) ∧
    ((export_pending_to_csv
        (update_status (add_form q0 url fu ct cn em fa fm rf nt now) fu
          (pys "completed") none).2).getD []).map (·.formUrlCol) =
      (get_pending_forms
        (update_status (add_form q0 url fu ct cn em fa fm rf nt now) fu
          (pys "completed") none).2).map (·.form_url) := by
  have hupd : update_status (add_form q0 url fu ct cn em fa fm rf nt now) fu
      (pys "completed") none =
      (true, q0 ++ [(⟨url, fu, ct, cn, em, now, pys "completed", nt, fa, fm, rf⟩ :
        CaptchaForm)]) := by
    rw [add_form, update_status_append_not_found _ _ _ _ _ h]
    simp [update_status]
  have hfil : List.filter (fun f => f.status == pys "pending")
      [(⟨url, fu, ct, cn, em, now, pys "completed", nt, fa, fm, rf⟩ : CaptchaForm)] = [] := by
    simp only [List.filter_cons,
      show ((pys "completed" : PyStr) == pys "pending") = false from by decide]
    simp [List.filter]
  refine ⟨by rw [hupd], ?_, export_rows_form_urls _⟩
  rw [hupd]
  intro f hf
  rw [get_pending_forms, List.filter_append, hfil, List.append_nil] at hf
  exact h f (List.mem_of_mem_filter hf)

/-- Claim C9 witness: the amended theorem applied to the empty initial
queue and one concrete entry. -/
theorem captcha_queue_pending_excludes_witness :
    (update_status (add_form [] (pys "https://b.jp") (pys "https://b.jp/contact")
        (pys "hcaptcha") none none none (pys "POST") [] none (pys "t0"))
      (pys "https://b.jp/contact") (pys "completed") none).1 = true ∧
    (∀ f ∈ get_pending_forms
        (update_status (add_form [] (pys "https://b.jp") (pys "https://b.jp/contact")
            (pys "hcaptcha") none none none (pys "POST") [] none (pys "t0"))
          (pys "https://b.jp/contact") (pys "completed") none).2,
      f.form_url ≠ pys "https://b.jp/contact") ∧
    ((export_pending_to_csv
        (update_status (add_form [] (pys "https://b.jp") (pys "https://b.jp/contact")
            (pys "hcaptcha") none none none (pys "POST") [] none (pys "t0"))
          (pys "https://b.jp/contact") (pys "completed") none).2).getD []).map
        (·.formUrlCol) =
      (get_pending_forms
        (update_status (add_form [] (pys "https://b.jp") (pys "https://b.jp/contact")
            (pys "hcaptcha") none none none (pys "POST") [] none (pys "t0"))
          (pys "https://b.jp/contact") (pys "completed") none).2).map (·.form_url) :=
  captcha_queue_pending_excludes [] (pys "https://b.jp") (pys "https://b.jp/contact")
    (pys "hcaptcha") none none none (pys "POST") [] none (pys "t0")
    (fun f hf => absurd hf (List.not_mem_nil f))

theorem foundSuccess_nil (t : PyStr)
    (h : ∀ kw ∈ SUCCESS_KEYWORDS, containsSub (lowerL kw) t = false) :
    foundSuccessKeywords t = [] :=
  List.filter_eq_nil_iff.mpr (fun kw hkw => by simp [h kw hkw])

theorem foundError_nil (t : PyStr)
    (h : ∀ kw ∈ ERROR_KEYWORDS, containsSub (lowerL kw) t = false) :
    foundErrorKeywords t = [] :=
  List.filter_eq_nil_iff.mpr (fun kw hkw => by simp [h kw hkw])

/-- Claim C5 (amended): a 200-response on the unchanged URL whose body
has no success keywords, no error keywords, no validation-error
patterns, none of the verifier's confirmation-page words
(`thank`, `complete`, `success`, `confirm`, `確認`, `完了` — three of
which are not success keywords, which is what the amendment adds), and
a `<form>` still present, scores confidence 0.05 (5 on the 0–100
scale) < 0.30 with `success = false`; and in general
`success ⟺ confidence ≥ 0.30`. -/
theorem verifier_form_unchanged_low_confidence (resp : PyResponse) (d : FormData)
    (origUrl : PyStr)
    (hstatus : resp.statusCode = 200)
    (hurl : resp.url = origUrl)
    (hsucc : ∀ kw ∈ SUCCESS_KEYWORDS, containsSub (lowerL kw) (lowerL resp.text) = false)
    (herr : ∀ kw ∈ ERROR_KEYWORDS, containsSub (lowerL kw) (lowerL resp.text) = false)
    (hval : validationErrorDetected resp.text = false)
    (hcw : ∀ w ∈ CONFIRMATION_PAGE_WORDS, containsSub w (lowerL resp.text) = false)
    (hform : findFormTag (lowerL resp.text) = true) :
    (verify_submission resp d origUrl).confidence = 5 ∧
    (verify_submission resp d origUrl).confidence < 30 ∧
    (verify_submission resp d origUrl).success = false ∧
    (∀ (r : PyResponse) (d2 : FormData) (u : PyStr),
      (verify_submission r d2 u).success = true ↔
        30 ≤ (verify_submission r d2 u).confidence) := by
  have hany : CONFIRMATION_PAGE_WORDS.any
      (fun kw => containsSub kw (lowerL resp.text)) = false := by
    rw [List.any_eq_false]
    intro w hw
    simp [hcw w hw]
  have hc : (verify_submission resp d origUrl).confidence = 5 := by
    simp only [verify_submission, hstatus, hurl, hval, hform, hany,
      foundSuccess_nil _ hsucc, foundError_nil _ herr]
    norm_num [iMin, iMax]
  refine ⟨hc, by rw [hc]; norm_num, ?_, ?_⟩
  · simp only [verify_submission] at hc ⊢
    rw [hc]
    decide
  · intro r d2 u
    simp only [verify_submission]
    simp [decide_eq_true_eq]

/-- Claim C5 counterexample: the body `<form>confirm</form>` on the
unchanged URL contains no success keyword (`confirm` is not one — only
`confirmed`, `確認` are), no error keyword and no validation pattern,
yet the verifier's Strategy 6 sees the word `confirm`, treats the page
as a confirmation page (+10 instead of −25) and returns confidence
0.40 ≥ 0.30 with `success = true`, refuting `confidence < 0.30`. -/
theorem verifier_form_unchanged_counterexample :
    (∀ kw ∈ SUCCESS_KEYWORDS,
      containsSub (lowerL kw) (lowerL (pys "<form>confirm</form>")) = false) ∧
    (∀ kw ∈ ERROR_KEYWORDS,
      containsSub (lowerL kw) (lowerL (pys "<form>confirm</form>")) = false) ∧
    validationErrorDetected (pys "<form>confirm</form>") = false ∧
    findFormTag (lowerL (pys "<form>confirm</form>")) = true ∧
    (verify_submission ⟨200, pys "https://example.jp/contact", pys "<form>confirm</form>"⟩
        [] (pys "https://example.jp/contact")).confidence = 40 ∧
    (verify_submission ⟨200, pys "https://example.jp/contact", pys "<form>confirm</form>"⟩
        [] (pys "https://example.jp/contact")).success = true := by
  refine ⟨by decide, by decide, by decide, by decide, by decide, by decide⟩

/-- Claim C5 witness: the amended theorem applied to the body
`<form></form>` on the unchanged URL. -/
theorem verifier_form_unchanged_low_confidence_witness :
    (verify_submission ⟨200, pys "https://example.jp/contact", pys "<form></form>"⟩
        [] (pys "https://example.jp/contact")).confidence = 5 ∧
    (verify_submission ⟨200, pys "https://example.jp/contact", pys "<form></form>"⟩
        [] (pys "https://example.jp/contact")).confidence < 30 ∧
    (verify_submission ⟨200, pys "https://example.jp/contact", pys "<form></form>"⟩
        [] (pys "https://example.jp/contact")).success = false ∧
    (∀ (r : PyResponse) (d2 : FormData) (u : PyStr),
      (verify_submission r d2 u).success = true ↔
        30 ≤ (verify_submission r d2 u).confidence) :=
  verifier_form_unchanged_low_confidence
    ⟨200, pys "https://example.jp/contact", pys "<form></form>"⟩ []
    (pys "https://example.jp/contact") rfl rfl
    (by decide) (by decide) (by decide) (by decide) (by decide)

/-- Claim C4 counterexample: the response `HTTP 200` at
`https://example.jp/thanks` (URL changed, ends in `/thanks`) whose body
is exactly `ありがとうございました` — one success keyword, no error
keywords, no validation pattern, no form — scores
30 + 10 + 25 + 10 = 75, i.e. confidence 0.75 < 0.80, refuting
`confidence ≥ 0.80`; `success` is still `true`. -/
theorem verifier_thanks_counterexample :
    (∀ kw ∈ ERROR_KEYWORDS,
      containsSub (lowerL kw) (lowerL (pys "ありがとうございました")) = false) ∧
    validationErrorDetected (pys "ありがとうございました") = false ∧
    findFormTag (lowerL (pys "ありがとうございました")) = false ∧
    endsWithL (pys "/thanks") (lowerL (pys "https://example.jp/thanks")) = true ∧
    containsSub (pys "ありがとうございました")
      (lowerL (pys "ありがとうございました")) = true ∧
    (verify_submission ⟨200, pys "https://example.jp/thanks", pys "ありがとうございました"⟩
        [] (pys "https://example.jp/contact")).confidence = 75 ∧
    (verify_submission ⟨200, pys "https://example.jp/thanks", pys "ありがとうございました"⟩
        [] (pys "https://example.jp/contact")).confidence < 80 ∧
    (verify_submission ⟨200, pys "https://example.jp/thanks", pys "ありがとうございました"⟩
        [] (pys "https://example.jp/contact")).success = true := by
  refine ⟨by decide, by decide, by decide, by decide, by decide, by decide, by decide, by decide⟩

set_option maxHeartbeats 1000000 in
/-- Claim C4 (amended): for every 200-response whose final URL differs
from the original and ends in `/thanks`, whose body contains
`ありがとうございました` but no error keywords, no validation-error
patterns and no `<form>` element, the verifier returns confidence
≥ 0.75 (75 on the 0–100 scale — not the claimed 0.80, which a body
carrying only that single success keyword does not reach) and
`success = true`. -/
theorem verifier_thanks_high_confidence (resp : PyResponse) (d : FormData) (origUrl : PyStr)
    (hstatus : resp.statusCode = 200)
    (hurl : resp.url ≠ origUrl)
    (hthanks : endsWithL (pys "/thanks") (lowerL resp.url) = true)
    (hkw : containsSub (pys "ありがとうございました") (lowerL resp.text) = true)
    (herr : ∀ kw ∈ ERROR_KEYWORDS, containsSub (lowerL kw) (lowerL resp.text) = false)
    (hval : validationErrorDetected resp.text = false)
    (hform : findFormTag (lowerL resp.text) = false) :
    75 ≤ (verify_submission resp d origUrl).confidence ∧
    (verify_submission resp d origUrl).success = true := by
  have hthank : containsSub (pys "/thank") (lowerL resp.url) = true := by
    rw [containsSub_iff]
    have h1 : (pys "/thank") <+: (pys "/thanks") := ⟨pys "s", by decide⟩
    exact h1.isInfix.trans (endsWithL_iff _ _ |>.mp hthanks).isInfix
  have hpat : successUrlPatternIdx resp.url = some 0 := by
    rw [successUrlPatternIdx]
    simp [hthank]
  have hmem : pys "ありがとうございました" ∈
      foundSuccessKeywords (lowerL resp.text) := by
    rw [foundSuccessKeywords]
    refine List.mem_filter.mpr ⟨by decide, ?_⟩
    rw [show lowerL (pys "ありがとうございました") = pys "ありがとうございました"
      from by decide]
    exact hkw
  have hlen : 1 ≤ (foundSuccessKeywords (lowerL resp.text)).length :=
    List.length_pos.mpr (List.ne_nil_of_mem hmem)
  have hfe := foundError_nil _ herr
  have hsucc75 : 75 ≤ (verify_submission resp d origUrl).confidence := by
    simp only [verify_submission, hstatus, hurl, hval, hform, hpat, hfe, List.length_nil]
    rw [if_pos hurl,
      if_pos (show (foundSuccessKeywords (lowerL resp.text)).length > 0 by omega)]
    norm_num
    simp only [iMin, iMax]
    split_ifs <;> omega
  refine ⟨hsucc75, ?_⟩
  have hiff : (verify_submission resp d origUrl).success = true ↔
      30 ≤ (verify_submission resp d origUrl).confidence := by
    simp only [verify_submission]
    simp [decide_eq_true_eq]
  exact hiff.mpr (by omega)

/-- Claim C4 witness: the amended theorem applied to the concrete
`/thanks` response. -/
theorem verifier_thanks_high_confidence_witness :
    75 ≤ (verify_submission
        ⟨200, pys "https://example.jp/thanks", pys "ご送信ありがとうございました"⟩
        [] (pys "https://example.jp/contact")).confidence ∧
    (verify_submission
        ⟨200, pys "https://example.jp/thanks", pys "ご送信ありがとうございました"⟩
        [] (pys "https://example.jp/contact")).success = true :=
  verifier_thanks_high_confidence
    ⟨200, pys "https://example.jp/thanks", pys "ご送信ありがとうございました"⟩ []
    (pys "https://example.jp/contact") rfl (by decide) (by decide) (by decide)
    (by decide) (by decide) (by decide)

/- ====================================================================
   Character-level lemmas for the validator (claim C10)
   ==================================================================== -/

theorem charToNat_inj (a b : Char) (h : a.toNat = b.toNat) : a = b := by
  apply Char.ext
  unfold Char.toNat at h
  exact UInt32.ext h

theorem charToNat_ofNat (n : Nat) (h : n < 0xD800) : (Char.ofNat n).toNat = n := by
  have hv : n.isValidChar := Or.inl h
  simp [Char.ofNat, hv, Char.ofNatAux, Char.toNat, UInt32.toNat, BitVec.toNat_ofNatLt]

theorem lowerChar_toNat_of_upper (c : Char) (h : 65 ≤ c.toNat ∧ c.toNat ≤ 90) :
    (lowerChar c).toNat = c.toNat + 32 := by
  rw [lowerChar, if_pos h, charToNat_ofNat _ (by omega)]

theorem lowerChar_eq_of_not_upper (c : Char) (h : ¬(65 ≤ c.toNat ∧ c.toNat ≤ 90)) :
    lowerChar c = c := by
  rw [lowerChar, if_neg h]

theorem upperChar_toNat_of_lower (c : Char) (h : 97 ≤ c.toNat ∧ c.toNat ≤ 122) :
    (upperChar c).toNat = c.toNat - 32 := by
  rw [upperChar, if_pos h, charToNat_ofNat _ (by omega)]

theorem upperChar_eq_of_not_lower (c : Char) (h : ¬(97 ≤ c.toNat ∧ c.toNat ≤ 122)) :
    upperChar c = c := by
  rw [upperChar, if_neg h]

theorem lowerChar_lowerChar (c : Char) : lowerChar (lowerChar c) = lowerChar c := by
  by_cases h : 65 ≤ c.toNat ∧ c.toNat ≤ 90
  · have ht := lowerChar_toNat_of_upper c h
    apply lowerChar_eq_of_not_upper
    omega
  · rw [lowerChar_eq_of_not_upper c h, lowerChar_eq_of_not_upper c h]

theorem upperChar_upperChar (c : Char) : upperChar (upperChar c) = upperChar c := by
  by_cases h : 97 ≤ c.toNat ∧ c.toNat ≤ 122
  · have ht := upperChar_toNat_of_lower c h
    apply upperChar_eq_of_not_lower
    omega
  · rw [upperChar_eq_of_not_lower c h, upperChar_eq_of_not_lower c h]

theorem upperChar_lowerChar (c : Char) : upperChar (lowerChar c) = upperChar c := by
  by_cases h : 65 ≤ c.toNat ∧ c.toNat ≤ 90
  · have ht := lowerChar_toNat_of_upper c h
    have h2 : 97 ≤ (lowerChar c).toNat ∧ (lowerChar c).toNat ≤ 122 := by omega
    have h3 := upperChar_toNat_of_lower _ h2
    have h4 : ¬(97 ≤ c.toNat ∧ c.toNat ≤ 122) := by omega
    have h5 := upperChar_eq_of_not_lower c h4
    apply charToNat_inj
    rw [h3, h5]
    omega
  · rw [lowerChar_eq_of_not_upper c h]

theorem lowerChar_upperChar (c : Char) : lowerChar (upperChar c) = lowerChar c := by
  by_cases h : 97 ≤ c.toNat ∧ c.toNat ≤ 122
  · have ht := upperChar_toNat_of_lower c h
    have h2 : 65 ≤ (upperChar c).toNat ∧ (upperChar c).toNat ≤ 90 := by omega
    have h3 := lowerChar_toNat_of_upper _ h2
    have h4 : ¬(65 ≤ c.toNat ∧ c.toNat ≤ 90) := by omega
    have h5 := lowerChar_eq_of_not_upper c h4
    apply charToNat_inj
    rw [h3, h5]
    omega
  · rw [upperChar_eq_of_not_lower c h]

theorem char_beq_iff_toNat (a b : Char) : (a == b) = true ↔ a.toNat = b.toNat := by
  rw [beq_iff_eq]
  exact ⟨fun h => by rw [h], charToNat_inj a b⟩

theorem pyIsSpace_toNat (c : Char) : pyIsSpace c = true ↔
    (c.toNat = 32 ∨ c.toNat = 9 ∨ c.toNat = 10 ∨ c.toNat = 13 ∨
     c.toNat = 11 ∨ c.toNat = 12) := by
  simp only [pyIsSpace, Bool.or_eq_true, char_beq_iff_toNat,
    show (' ' : Char).toNat = 32 from rfl, show ('\t' : Char).toNat = 9 from rfl,
    show ('\n' : Char).toNat = 10 from rfl, show ('\r' : Char).toNat = 13 from rfl,
    show ('\x0b' : Char).toNat = 11 from rfl, show ('\x0c' : Char).toNat = 12 from rfl]
  tauto

theorem pyIsSpace_lowerChar (c : Char) : pyIsSpace (lowerChar c) = pyIsSpace c := by
  by_cases h : 65 ≤ c.toNat ∧ c.toNat ≤ 90
  · have ht := lowerChar_toNat_of_upper c h
    have h1 : pyIsSpace c = false := by
      rw [Bool.eq_false_iff, Ne, pyIsSpace_toNat]
      omega
    have h2 : pyIsSpace (lowerChar c) = false := by
      rw [Bool.eq_false_iff, Ne, pyIsSpace_toNat]
      omega
    rw [h1, h2]
  · rw [lowerChar_eq_of_not_upper c h]

theorem pyIsSpace_upperChar (c : Char) : pyIsSpace (upperChar c) = pyIsSpace c := by
  by_cases h : 97 ≤ c.toNat ∧ c.toNat ≤ 122
  · have ht := upperChar_toNat_of_lower c h
    have h1 : pyIsSpace c = false := by
      rw [Bool.eq_false_iff, Ne, pyIsSpace_toNat]
      omega
    have h2 : pyIsSpace (upperChar c) = false := by
      rw [Bool.eq_false_iff, Ne, pyIsSpace_toNat]
      omega
    rw [h1, h2]
  · rw [upperChar_eq_of_not_lower c h]

theorem space_beq_lowerChar (c : Char) : (lowerChar c == ' ') = (c == ' ') := by
  by_cases h : 65 ≤ c.toNat ∧ c.toNat ≤ 90
  · have ht := lowerChar_toNat_of_upper c h
    have h1 : (c == ' ') = false := by
      rw [Bool.eq_false_iff, Ne, char_beq_iff_toNat,
        show (' ' : Char).toNat = 32 from rfl]
      omega
    have h2 : (lowerChar c == ' ') = false := by
      rw [Bool.eq_false_iff, Ne, char_beq_iff_toNat,
        show (' ' : Char).toNat = 32 from rfl]
      omega
    rw [h1, h2]
  · rw [lowerChar_eq_of_not_upper c h]

theorem isJapaneseChar_toNat (c : Char) : isJapaneseChar c = true ↔
    ((0x3040 ≤ c.toNat ∧ c.toNat ≤ 0x309F) ∨ (0x30A0 ≤ c.toNat ∧ c.toNat ≤ 0x30FF) ∨
     (0x4E00 ≤ c.toNat ∧ c.toNat ≤ 0x9FAF)) := by
  simp [isJapaneseChar]
  tauto

theorem isJapaneseChar_lowerChar (c : Char) :
    isJapaneseChar (lowerChar c) = isJapaneseChar c := by
  by_cases h : 65 ≤ c.toNat ∧ c.toNat ≤ 90
  · have ht := lowerChar_toNat_of_upper c h
    have h1 : isJapaneseChar c = false := by
      rw [Bool.eq_false_iff, Ne, isJapaneseChar_toNat]
      omega
    have h2 : isJapaneseChar (lowerChar c) = false := by
      rw [Bool.eq_false_iff, Ne, isJapaneseChar_toNat]
      omega
    rw [h1, h2]
  · rw [lowerChar_eq_of_not_upper c h]

theorem isJapaneseChar_upperChar (c : Char) :
    isJapaneseChar (upperChar c) = isJapaneseChar c := by
  by_cases h : 97 ≤ c.toNat ∧ c.toNat ≤ 122
  · have ht := upperChar_toNat_of_lower c h
    have h1 : isJapaneseChar c = false := by
      rw [Bool.eq_false_iff, Ne, isJapaneseChar_toNat]
      omega
    have h2 : isJapaneseChar (upperChar c) = false := by
      rw [Bool.eq_false_iff, Ne, isJapaneseChar_toNat]
      omega
    rw [h1, h2]
  · rw [upperChar_eq_of_not_lower c h]

/- ====================================================================
   Stripping and lower-casing lemmas (claim C10)
   ==================================================================== -/

theorem dropWhile_eq_self_of_head (p : Char → Bool) (l : PyStr)
    (h : ∀ c ∈ l.head?, p c = false) : l.dropWhile p = l := by
  cases l with
  | nil => rfl
  | cons c cs =>
    rw [List.dropWhile_cons, if_neg]
    simp [h c (by simp)]

theorem head?_dropWhile (p : Char → Bool) (l : PyStr) :
    ∀ c ∈ (l.dropWhile p).head?, p c = false := by
  induction l with
  | nil => simp
  | cons c cs ih =>
    rw [List.dropWhile_cons]
    by_cases h : p c
    · simpa [h] using ih
    · simp [h]

theorem stripL_eq_self (l : PyStr) (h : noEdgeSpace l) : stripL l = l := by
  rw [stripL, dropWhile_eq_self_of_head _ _ h.1, dropWhile_eq_self_of_head, List.reverse_reverse]
  intro c hc
  rw [List.head?_reverse] at hc
  exact h.2 c hc

theorem getLast?_of_suffix {s l : PyStr} (h : s <:+ l) (hs : s ≠ []) :
    s.getLast? = l.getLast? := by
  obtain ⟨t, rfl⟩ := h
  exact (List.getLast?_append_of_ne_nil t hs).symm

theorem noEdgeSpace_stripL (l : PyStr) : noEdgeSpace (stripL l) := by
  constructor
  · intro c hc
    rw [stripL, List.head?_reverse] at hc
    by_cases hx : (((l.dropWhile pyIsSpace).reverse).dropWhile pyIsSpace) = []
    · rw [hx] at hc
      simp at hc
    · rw [getLast?_of_suffix (List.dropWhile_suffix pyIsSpace) hx,
        List.getLast?_reverse] at hc
      exact head?_dropWhile pyIsSpace _ c hc
  · intro c hc
    rw [stripL, List.getLast?_reverse] at hc
    exact head?_dropWhile pyIsSpace _ c hc

theorem stripL_idem (l : PyStr) : stripL (stripL l) = stripL l :=
  stripL_eq_self _ (noEdgeSpace_stripL l)

theorem stripL_infix_self (l : PyStr) : stripL l <:+: l := by
  have h1 : l.dropWhile pyIsSpace <:+ l := List.dropWhile_suffix pyIsSpace
  have h2 : ((l.dropWhile pyIsSpace).reverse).dropWhile pyIsSpace <:+
      (l.dropWhile pyIsSpace).reverse := List.dropWhile_suffix pyIsSpace
  have h3 : stripL l <+: l.dropWhile pyIsSpace := by
    rw [← List.reverse_suffix, stripL, List.reverse_reverse]
    exact h2
  exact h3.isInfix.trans h1.isInfix

theorem mem_of_mem_stripL {c : Char} {l : PyStr} (h : c ∈ stripL l) : c ∈ l :=
  (stripL_infix_self l).subset h

theorem lowerL_lowerL (l : PyStr) : lowerL (lowerL l) = lowerL l := by
  simp only [lowerL, List.map_map]
  exact List.map_congr_left (fun c _ => lowerChar_lowerChar c)

theorem upperL_upperL (l : PyStr) : upperL (upperL l) = upperL l := by
  simp only [upperL, List.map_map]
  exact List.map_congr_left (fun c _ => upperChar_upperChar c)

theorem upperL_lowerL (l : PyStr) : upperL (lowerL l) = upperL l := by
  simp only [upperL, lowerL, List.map_map]
  exact List.map_congr_left (fun c _ => upperChar_lowerChar c)

theorem lowerL_upperL (l : PyStr) : lowerL (upperL l) = lowerL l := by
  simp only [lowerL, upperL, List.map_map]
  exact List.map_congr_left (fun c _ => lowerChar_upperChar c)

theorem noEdgeSpace_lowerL (l : PyStr) (h : noEdgeSpace l) : noEdgeSpace (lowerL l) := by
  constructor
  · intro c hc
    rw [lowerL, List.head?_map] at hc
    cases hl : l.head? with
    | none => rw [hl] at hc; simp at hc
    | some d =>
      rw [hl] at hc
      simp at hc
      rw [← hc, pyIsSpace_lowerChar]
      exact h.1 d (by rw [hl]; rfl)
  · intro c hc
    rw [lowerL, List.getLast?_map] at hc
    cases hl : l.getLast? with
    | none => rw [hl] at hc; simp at hc
    | some d =>
      rw [hl] at hc
      simp at hc
      rw [← hc, pyIsSpace_lowerChar]
      exact h.2 d (by rw [hl]; rfl)

theorem pyIsSpace_comp_lowerChar : (pyIsSpace ∘ lowerChar) = pyIsSpace :=
  funext pyIsSpace_lowerChar

theorem dropWhile_space_lowerL (l : PyStr) :
    (lowerL l).dropWhile pyIsSpace = lowerL (l.dropWhile pyIsSpace) := by
  rw [lowerL, List.dropWhile_map, pyIsSpace_comp_lowerChar, lowerL]

theorem reverse_lowerL (l : PyStr) : (lowerL l).reverse = lowerL l.reverse := by
  rw [lowerL, lowerL, List.map_reverse]

theorem stripL_lowerL (l : PyStr) : stripL (lowerL l) = lowerL (stripL l) := by
  rw [stripL, dropWhile_space_lowerL, reverse_lowerL, dropWhile_space_lowerL, reverse_lowerL,
    stripL]

theorem filter_nospace_lowerL (l : PyStr) :
    (lowerL l).filter (fun c => !(c == ' ')) = lowerL (l.filter (fun c => !(c == ' '))) := by
  rw [lowerL, List.filter_map, lowerL]
  congr 1
  apply List.filter_congr
  intro c _
  simp only [Function.comp_apply, space_beq_lowerChar]

theorem noEdgeSpace_filter_nospace (l : PyStr) (h : noEdgeSpace l) :
    noEdgeSpace (l.filter (fun c => !(c == ' '))) := by
  constructor
  · intro c hc
    cases l with
    | nil => simp [List.filter] at hc
    | cons d ds =>
      have hd : pyIsSpace d = false := h.1 d rfl
      have hd2 : (!(d == ' ')) = true := by
        have : (d == ' ') = false := by
          rw [Bool.eq_false_iff, Ne, char_beq_iff_toNat,
            show (' ' : Char).toNat = 32 from rfl]
          intro hx
          rw [Bool.eq_false_iff, Ne, pyIsSpace_toNat] at hd
          omega
        rw [this]
        rfl
      rw [List.filter_cons, if_pos hd2] at hc
      simp at hc
      rw [← hc]
      exact hd
  · intro c hc
    have hrev : c ∈ (l.filter (fun c => !(c == ' '))).reverse.head? := by
      rwa [List.head?_reverse]
    rw [← List.filter_reverse] at hrev
    cases hl : l.reverse with
    | nil =>
      rw [hl] at hrev
      simp [List.filter] at hrev
    | cons d ds =>
      have hd : pyIsSpace d = false := by
        apply h.2
        rw [← List.head?_reverse, hl]
        rfl
      have hd2 : (!(d == ' ')) = true := by
        have : (d == ' ') = false := by
          rw [Bool.eq_false_iff, Ne, char_beq_iff_toNat,
            show (' ' : Char).toNat = 32 from rfl]
          intro hx
          rw [Bool.eq_false_iff, Ne, pyIsSpace_toNat] at hd
          omega
        rw [this]
        rfl
      rw [hl, List.filter_cons, if_pos hd2] at hrev
      simp at hrev
      rw [← hrev]
      exact hd

/- ====================================================================
   Email-branch lemmas (claim C10)
   ==================================================================== -/

theorem filter_nospace_idem (l : PyStr) :
    (l.filter (fun c => !(c == ' '))).filter (fun c => !(c == ' ')) =
      l.filter (fun c => !(c == ' ')) := by
  rw [List.filter_filter]
  apply List.filter_congr
  intro c _
  rw [Bool.and_self]

theorem noEdgeSpace_format_email (x : PyStr) : noEdgeSpace (format_email x) := by
  have he : noEdgeSpace (lowerL (stripL x)) := noEdgeSpace_lowerL _ (noEdgeSpace_stripL x)
  rw [format_email]
  by_cases h : matchEmailPy (lowerL (stripL x)) = true
  · rwa [if_pos h]
  · rw [if_neg h]
    exact noEdgeSpace_filter_nospace _ he

theorem stripL_format_email (x : PyStr) : stripL (format_email x) = format_email x :=
  stripL_eq_self _ (noEdgeSpace_format_email x)

theorem lowerL_format_email (x : PyStr) : lowerL (format_email x) = format_email x := by
  rw [format_email]
  by_cases h : matchEmailPy (lowerL (stripL x)) = true
  · rw [if_pos h, lowerL_lowerL]
  · rw [if_neg h, ← filter_nospace_lowerL, lowerL_lowerL]

theorem format_email_idem (x : PyStr) : format_email (format_email x) = format_email x := by
  have hy : lowerL (stripL (format_email x)) = format_email x := by
    rw [stripL_format_email, lowerL_format_email]
  rw [format_email, hy]
  by_cases hm : matchEmailPy (format_email x) = true
  · rw [if_pos hm]
  · rw [if_neg hm]
    rw [format_email] at hm ⊢
    by_cases hme : matchEmailPy (lowerL (stripL x)) = true
    · rw [if_pos hme] at hm
      exact absurd hme hm
    · rw [if_neg hme]
      exact filter_nospace_idem _

/- ====================================================================
   Word machinery for the name and company branches (claim C10)
   ==================================================================== -/

theorem collapseWsGo_true_head (l : PyStr) : headNotSpace (collapseWsGo true l) = true := by
  induction l with
  | nil => rfl
  | cons c cs ih =>
    rw [collapseWsGo]
    by_cases h : pyIsSpace c = true
    · simpa [h] using ih
    · simp only [Bool.not_eq_true] at h
      simp [h, headNotSpace]

theorem wsCanonical_collapseWsGo (l : PyStr) : ∀ b, wsCanonical (collapseWsGo b l) = true := by
  induction l with
  | nil => intro b; rfl
  | cons c cs ih =>
    intro b
    rw [collapseWsGo]
    by_cases h : pyIsSpace c = true
    · cases b
      · simp only [h, if_true, Bool.false_eq_true, if_false]
        rw [wsCanonical]
        simp [collapseWsGo_true_head, ih true]
      · simpa [h] using ih true
    · simp only [Bool.not_eq_true] at h
      simp only [h, Bool.false_eq_true, if_false]
      rw [wsCanonical]
      simp [h, ih false]

theorem collapseWsGo_true_eq_false (l : PyStr) (h : headNotSpace l = true) :
    collapseWsGo true l = collapseWsGo false l := by
  cases l with
  | nil => rfl
  | cons c cs =>
    rw [headNotSpace, Bool.not_eq_true'] at h
    rw [collapseWsGo, collapseWsGo]
    simp [h]

theorem collapseWs_eq_self (l : PyStr) (h : wsCanonical l = true) : collapseWs l = l := by
  rw [collapseWs]
  induction l with
  | nil => rfl
  | cons c cs ih =>
    rw [wsCanonical, Bool.and_eq_true] at h
    rw [collapseWsGo]
    by_cases hc : pyIsSpace c = true
    · have h1 := h.1
      rw [hc] at h1
      simp only [Bool.not_true, Bool.false_or, Bool.and_eq_true, beq_iff_eq] at h1
      simp only [hc, if_true, Bool.false_eq_true, if_false]
      rw [collapseWsGo_true_eq_false cs h1.2, ih h.2, h1.1]
    · simp only [Bool.not_eq_true] at hc
      simp only [hc, Bool.false_eq_true, if_false]
      rw [ih h.2]

theorem collapseWsGo_ne_nil (l : PyStr) (e : Char) (he : e ∈ l)
    (hes : pyIsSpace e = false) : ∀ b, collapseWsGo b l ≠ [] := by
  induction l with
  | nil => cases he
  | cons c cs ih =>
    intro b
    rw [collapseWsGo]
    by_cases hc : pyIsSpace c = true
    · have he' : e ∈ cs := by
        cases List.mem_cons.mp he with
        | inl h => rw [h] at hes; rw [hes] at hc; cases hc
        | inr h => exact h
      cases b
      · simp [hc]
      · simpa [hc] using ih he' true
    · simp only [Bool.not_eq_true] at hc
      simp [hc]

theorem getLast?_collapseWsGo (l : PyStr) (hlast : ∀ c ∈ l.getLast?, pyIsSpace c = false) :
    ∀ b, ∀ c ∈ (collapseWsGo b l).getLast?, pyIsSpace c = false := by
  induction l with
  | nil => intro b c hc; cases hc
  | cons c cs ih =>
    intro b d hd
    cases cs with
    | nil =>
      have hc : pyIsSpace c = false := hlast c rfl
      rw [collapseWsGo] at hd
      simp only [hc, Bool.false_eq_true, if_false] at hd
      rw [show collapseWsGo false [] = [] from rfl] at hd
      simp at hd
      exact hd ▸ hc
    | cons e es =>
      have hlast' : ∀ x ∈ (e :: es).getLast?, pyIsSpace x = false := by
        intro x hx
        apply hlast
        rw [show (c :: e :: es).getLast? = (e :: es).getLast? from
          (List.getLast?_append_of_ne_nil [c] (by simp)).symm]
        exact hx
      have hnn : collapseWsGo true (e :: es) ≠ [] := by
        obtain ⟨y, hy⟩ := Option.ne_none_iff_exists'.mp
          (show (e :: es).getLast? ≠ none by simp [List.getLast?_eq_getLast])
        exact collapseWsGo_ne_nil _ y (List.mem_of_mem_getLast? hy) (hlast' y hy) true
      rw [collapseWsGo] at hd
      by_cases hc : pyIsSpace c = true
      · cases b
        · simp only [hc, if_true, Bool.false_eq_true, if_false] at hd
          rw [show (' ' :: collapseWsGo true (e :: es)) = [' '] ++ collapseWsGo true (e :: es)
            from rfl, List.getLast?_append_of_ne_nil [' '] hnn] at hd
          exact ih hlast' true d hd
        · simp only [hc, if_true] at hd
          exact ih hlast' true d hd
      · simp only [Bool.not_eq_true] at hc
        have hnn2 : collapseWsGo false (e :: es) ≠ [] := by
          obtain ⟨y, hy⟩ := Option.ne_none_iff_exists'.mp
            (show (e :: es).getLast? ≠ none by simp [List.getLast?_eq_getLast])
          exact collapseWsGo_ne_nil _ y (List.mem_of_mem_getLast? hy) (hlast' y hy) false
        simp only [hc, Bool.false_eq_true, if_false] at hd
        rw [show (c :: collapseWsGo false (e :: es)) = [c] ++ collapseWsGo false (e :: es)
          from rfl, List.getLast?_append_of_ne_nil [c] hnn2] at hd
        exact ih hlast' false d hd

theorem noEdgeSpace_collapseWs (l : PyStr) (h : noEdgeSpace l) :
    noEdgeSpace (collapseWs l) := by
  constructor
  · intro c hc
    cases l with
    | nil => cases hc
    | cons d ds =>
      have hd : pyIsSpace d = false := h.1 d rfl
      rw [collapseWs, collapseWsGo] at hc
      simp only [hd, Bool.false_eq_true, if_false] at hc
      simp at hc
      rw [← hc]
      exact hd
  · exact fun c hc => getLast?_collapseWsGo l h.2 false c hc

theorem joinSp_cons2 (w v : PyStr) (us : List PyStr) :
    joinSp (w :: v :: us) = w ++ ' ' :: joinSp (v :: us) := rfl

theorem pySplitGo_goodWords (l : PyStr) : ∀ acc, (∀ c ∈ acc, pyIsSpace c = false) →
    ∀ w ∈ pySplitGo acc l, w ≠ [] ∧ ∀ c ∈ w, pyIsSpace c = false := by
  induction l with
  | nil =>
    intro acc hacc w hw
    rw [pySplitGo] at hw
    by_cases he : acc.isEmpty
    · simp [he] at hw
    · simp [he] at hw
      subst hw
      exact ⟨by simpa [List.isEmpty_iff] using he, hacc⟩
  | cons c cs ih =>
    intro acc hacc w hw
    rw [pySplitGo] at hw
    by_cases hc : pyIsSpace c = true
    · simp only [hc, if_true] at hw
      by_cases he : acc.isEmpty
      · simp only [he, if_true] at hw
        exact ih [] (by simp) w hw
      · simp only [he, Bool.false_eq_true, if_false, List.mem_cons] at hw
        cases hw with
        | inl h =>
          subst h
          exact ⟨by simpa [List.isEmpty_iff] using he, hacc⟩
        | inr h => exact ih [] (by simp) w h
    · simp only [hc, Bool.false_eq_true, if_false] at hw
      refine ih (acc ++ [c]) ?_ w hw
      intro d hd
      rcases List.mem_append.mp hd with h | h
      · exact hacc d h
      · simp at h
        subst h
        simpa using hc

theorem pySplitGo_chars (l : PyStr) : ∀ acc, ∀ w ∈ pySplitGo acc l, ∀ c ∈ w, c ∈ acc ∨ c ∈ l := by
  induction l with
  | nil =>
    intro acc w hw c hc
    rw [pySplitGo] at hw
    by_cases he : acc.isEmpty
    · simp [he] at hw
    · simp [he] at hw
      subst hw
      exact Or.inl hc
  | cons d ds ih =>
    intro acc w hw c hc
    rw [pySplitGo] at hw
    by_cases hd : pyIsSpace d = true
    · simp only [hd, if_true] at hw
      by_cases he : acc.isEmpty
      · simp only [he, if_true] at hw
        rcases ih [] w hw c hc with h | h
        · cases h
        · exact Or.inr (List.mem_cons_of_mem d h)
      · simp only [he, Bool.false_eq_true, if_false, List.mem_cons] at hw
        cases hw with
        | inl h => subst h; exact Or.inl hc
        | inr h =>
          rcases ih [] w h c hc with h2 | h2
          · cases h2
          · exact Or.inr (List.mem_cons_of_mem d h2)
    · simp only [hd, Bool.false_eq_true, if_false] at hw
      rcases ih (acc ++ [d]) w hw c hc with h | h
      · rcases List.mem_append.mp h with h2 | h2
        · exact Or.inl h2
        · simp at h2
          exact Or.inr (by rw [h2]; exact List.mem_cons_self _ _)
      · exact Or.inr (List.mem_cons_of_mem d h)

theorem pySplitGo_word (w : PyStr) : (∀ c ∈ w, pyIsSpace c = false) →
    ∀ acc r, pySplitGo acc (w ++ r) = pySplitGo (acc ++ w) r := by
  induction w with
  | nil => intro _ acc r; simp
  | cons c cs ih =>
    intro hw acc r
    have hc : pyIsSpace c = false := hw c (List.mem_cons_self c cs)
    rw [List.cons_append, pySplitGo]
    simp only [hc, Bool.false_eq_true, if_false]
    rw [ih (fun d hd => hw d (List.mem_cons_of_mem c hd)) (acc ++ [c]) r]
    simp

theorem pySplitGo_sep (acc : PyStr) (hacc : acc ≠ []) (r : PyStr) :
    pySplitGo acc (' ' :: r) = acc :: pySplitGo [] r := by
  rw [pySplitGo]
  simp [pyIsSpace, List.isEmpty_iff, hacc]

theorem joinSp_ne_nil (v : PyStr) (vs : List PyStr) (hv : v ≠ []) :
    joinSp (v :: vs) ≠ [] := by
  cases vs with
  | nil => simpa [joinSp] using hv
  | cons u us => simp [joinSp_cons2, hv]

theorem pySplit_joinSp (ws : List PyStr) (h : goodWords ws) : pySplit (joinSp ws) = ws := by
  induction ws with
  | nil => rfl
  | cons w vs ih =>
    have hw := h w (List.mem_cons_self w vs)
    cases vs with
    | nil =>
      rw [joinSp, pySplit, ← List.append_nil w, pySplitGo_word w hw.2 [] []]
      rw [pySplitGo]
      simp [List.isEmpty_iff, hw.1]
    | cons v us =>
      rw [joinSp_cons2, pySplit, pySplitGo_word w hw.2 []]
      rw [List.nil_append, pySplitGo_sep w hw.1]
      rw [show pySplitGo [] (joinSp (v :: us)) = pySplit (joinSp (v :: us)) from rfl]
      rw [ih (fun x hx => h x (List.mem_cons_of_mem w hx))]

theorem joinSp_head (v : PyStr) (vs : List PyStr) (h : goodWords (v :: vs)) :
    headNotSpace (joinSp (v :: vs)) = true := by
  have hv1 : v ≠ [] := (h v (List.mem_cons_self v vs)).1
  have hv2 : ∀ c ∈ v, pyIsSpace c = false := (h v (List.mem_cons_self v vs)).2
  cases v with
  | nil => exact absurd rfl hv1
  | cons c cs =>
    have hc : pyIsSpace c = false := hv2 c (List.mem_cons_self c cs)
    cases vs with
    | nil => simp [joinSp, headNotSpace, hc]
    | cons u us => simp [joinSp_cons2, headNotSpace, hc]

theorem noEdgeSpace_joinSp (ws : List PyStr) (h : goodWords ws) : noEdgeSpace (joinSp ws) := by
  induction ws with
  | nil => exact ⟨fun c hc => (by simp [joinSp] at hc), fun c hc => (by simp [joinSp] at hc)⟩
  | cons w vs ih =>
    have hw := h w (List.mem_cons_self w vs)
    cases vs with
    | nil =>
      rw [joinSp]
      exact ⟨fun c hc => hw.2 c (List.mem_of_mem_head? hc),
             fun c hc => hw.2 c (List.mem_of_mem_getLast? hc)⟩
    | cons v us =>
      have h' : goodWords (v :: us) := fun x hx => h x (List.mem_cons_of_mem w hx)
      have ihne := joinSp_ne_nil v us (h' v (List.mem_cons_self v us)).1
      rw [joinSp_cons2]
      constructor
      · intro c hc
        rw [List.head?_append_of_ne_nil _ hw.1] at hc
        exact hw.2 c (List.mem_of_mem_head? hc)
      · intro c hc
        rw [List.getLast?_append_of_ne_nil _ (by simp)] at hc
        rw [show (' ' :: joinSp (v :: us)) = [' '] ++ joinSp (v :: us) from rfl,
          List.getLast?_append_of_ne_nil _ ihne] at hc
        exact (ih h').2 c hc

theorem wsCanonical_of_nospace (w : PyStr) (hw : ∀ c ∈ w, pyIsSpace c = false) :
    wsCanonical w = true := by
  induction w with
  | nil => rfl
  | cons c cs ih =>
    rw [wsCanonical]
    simp only [hw c (List.mem_cons_self c cs), Bool.not_false, Bool.true_or, Bool.true_and]
    exact ih (fun d hd => hw d (List.mem_cons_of_mem c hd))

theorem wsCanonical_append (w rest : PyStr) (hw : ∀ c ∈ w, pyIsSpace c = false)
    (hr : wsCanonical rest = true) : wsCanonical (w ++ rest) = true := by
  induction w with
  | nil => simpa using hr
  | cons c cs ih =>
    rw [List.cons_append, wsCanonical]
    simp only [hw c (List.mem_cons_self c cs), Bool.not_false, Bool.true_or, Bool.true_and]
    exact ih (fun d hd => hw d (List.mem_cons_of_mem c hd))

theorem wsCanonical_joinSp (ws : List PyStr) (h : goodWords ws) :
    wsCanonical (joinSp ws) = true := by
  induction ws with
  | nil => rfl
  | cons w vs ih =>
    have hw := h w (List.mem_cons_self w vs)
    cases vs with
    | nil => exact wsCanonical_of_nospace w hw.2
    | cons v us =>
      have h' : goodWords (v :: us) := fun x hx => h x (List.mem_cons_of_mem w hx)
      rw [joinSp_cons2]
      refine wsCanonical_append w _ hw.2 ?_
      rw [wsCanonical]
      simp only [show pyIsSpace ' ' = true from rfl, Bool.not_true, Bool.false_or]
      simp [joinSp_head v us h', ih h']

theorem containsJapanese_joinSp (ws : List PyStr) :
    containsJapanese (joinSp ws) = ws.any containsJapanese := by
  induction ws with
  | nil => rfl
  | cons w vs ih =>
    cases vs with
    | nil => simp [joinSp, containsJapanese]
    | cons v us =>
      rw [joinSp_cons2, containsJapanese, List.any_append]
      rw [show ((' ' :: joinSp (v :: us)).any isJapaneseChar) =
        (isJapaneseChar ' ' || (joinSp (v :: us)).any isJapaneseChar) from rfl]
      rw [show isJapaneseChar ' ' = false from rfl]
      rw [show ((joinSp (v :: us)).any isJapaneseChar) = containsJapanese (joinSp (v :: us)) from rfl,
        ih]
      simp [containsJapanese]

theorem format_name_eq (x : PyStr) : format_name x = wordwiseFmt pyCapitalize x := rfl

theorem format_company_eq (x : PyStr) : format_company x = wordwiseFmt capCompanyPart x := rfl

theorem goodWords_pySplit (s : PyStr) : goodWords (pySplit s) := by
  intro w hw
  rw [pySplit] at hw
  exact pySplitGo_goodWords s [] (by simp) w hw

theorem mem_pySplit_chars (s w : PyStr) (hw : w ∈ pySplit s) (c : Char) (hc : c ∈ w) :
    c ∈ s := by
  rw [pySplit] at hw
  rcases pySplitGo_chars s [] w hw c hc with h | h
  · cases h
  · exact h

theorem goodWords_map (φ : PyStr → PyStr)
    (hφ : ∀ w, w ≠ [] → (∀ c ∈ w, pyIsSpace c = false) →
      φ w ≠ [] ∧ ∀ c ∈ φ w, pyIsSpace c = false)
    (ws : List PyStr) (h : goodWords ws) : goodWords (ws.map φ) := by
  intro w hw
  rcases List.mem_map.mp hw with ⟨v, hv, rfl⟩
  exact hφ v (h v hv).1 (h v hv).2

theorem any_congr_mem {α : Type} (l : List α) (p q : α → Bool)
    (h : ∀ a ∈ l, p a = q a) : l.any p = l.any q := by
  induction l with
  | nil => rfl
  | cons a as ih =>
    rw [List.any_cons, List.any_cons, h a (List.mem_cons_self a as),
      ih (fun b hb => h b (List.mem_cons_of_mem a hb))]

theorem containsJapanese_lowerL (l : PyStr) :
    containsJapanese (lowerL l) = containsJapanese l := by
  rw [containsJapanese, containsJapanese, lowerL, List.any_map]
  exact any_congr_mem _ _ _ (fun c _ => isJapaneseChar_lowerChar c)

theorem containsJapanese_upperL (l : PyStr) :
    containsJapanese (upperL l) = containsJapanese l := by
  rw [containsJapanese, containsJapanese, upperL, List.any_map]
  exact any_congr_mem _ _ _ (fun c _ => isJapaneseChar_upperChar c)

theorem pyCapitalize_good (w : PyStr) (hne : w ≠ []) (hsp : ∀ c ∈ w, pyIsSpace c = false) :
    pyCapitalize w ≠ [] ∧ ∀ c ∈ pyCapitalize w, pyIsSpace c = false := by
  cases w with
  | nil => exact absurd rfl hne
  | cons c cs =>
    rw [pyCapitalize]
    refine ⟨by simp, ?_⟩
    intro d hd
    rcases List.mem_cons.mp hd with h | h
    · rw [h, pyIsSpace_upperChar]
      exact hsp c (List.mem_cons_self c cs)
    · rcases List.mem_map.mp (show d ∈ cs.map lowerChar from h) with ⟨e, he, hde⟩
      rw [← hde, pyIsSpace_lowerChar]
      exact hsp e (List.mem_cons_of_mem c he)

theorem pyCapitalize_idem (w : PyStr) : pyCapitalize (pyCapitalize w) = pyCapitalize w := by
  cases w with
  | nil => rfl
  | cons c cs =>
    rw [pyCapitalize, pyCapitalize, upperChar_upperChar, lowerL_lowerL]

theorem containsJapanese_pyCapitalize (w : PyStr) :
    containsJapanese (pyCapitalize w) = containsJapanese w := by
  cases w with
  | nil => rfl
  | cons c cs =>
    rw [pyCapitalize,
      show containsJapanese (upperChar c :: lowerL cs)
        = (isJapaneseChar (upperChar c) || containsJapanese (lowerL cs)) from rfl,
      isJapaneseChar_upperChar, containsJapanese_lowerL]
    rfl

theorem upperL_pyCapitalize (w : PyStr) : upperL (pyCapitalize w) = upperL w := by
  cases w with
  | nil => rfl
  | cons c cs =>
    rw [pyCapitalize,
      show upperL (upperChar c :: lowerL cs)
        = upperChar (upperChar c) :: upperL (lowerL cs) from rfl,
      upperChar_upperChar, upperL_lowerL]
    rfl

theorem capCompanyPart_good (w : PyStr) (hne : w ≠ [])
    (hsp : ∀ c ∈ w, pyIsSpace c = false) :
    capCompanyPart w ≠ [] ∧ ∀ c ∈ capCompanyPart w, pyIsSpace c = false := by
  rw [capCompanyPart]
  by_cases h : ((companyAbbrevs.map upperL).contains (upperL w)) = true
  · rw [if_pos h]
    constructor
    · simpa [upperL] using hne
    · intro d hd
      rcases List.mem_map.mp (show d ∈ w.map upperChar from hd) with ⟨e, he, hde⟩
      rw [← hde, pyIsSpace_upperChar]
      exact hsp e he
  · rw [if_neg h]
    exact pyCapitalize_good w hne hsp

theorem upperL_capCompanyPart (w : PyStr) : upperL (capCompanyPart w) = upperL w := by
  rw [capCompanyPart]
  by_cases h : ((companyAbbrevs.map upperL).contains (upperL w)) = true
  · rw [if_pos h, upperL_upperL]
  · rw [if_neg h, upperL_pyCapitalize]

theorem capCompanyPart_idem (w : PyStr) :
    capCompanyPart (capCompanyPart w) = capCompanyPart w := by
  by_cases h : ((companyAbbrevs.map upperL).contains (upperL w)) = true
  · rw [capCompanyPart, upperL_capCompanyPart, if_pos h, capCompanyPart, if_pos h]
  · rw [capCompanyPart, upperL_capCompanyPart, if_neg h, capCompanyPart, if_neg h]
    exact pyCapitalize_idem w

theorem containsJapanese_capCompanyPart (w : PyStr) :
    containsJapanese (capCompanyPart w) = containsJapanese w := by
  rw [capCompanyPart]
  by_cases h : ((companyAbbrevs.map upperL).contains (upperL w)) = true
  · rw [if_pos h]
    exact containsJapanese_upperL w
  · rw [if_neg h]
    exact containsJapanese_pyCapitalize w

theorem wsCanonical_collapseWs (l : PyStr) : wsCanonical (collapseWs l) = true := by
  rw [collapseWs]
  exact wsCanonical_collapseWsGo l false

theorem noEdgeSpace_wordwiseFmt (φ : PyStr → PyStr)
    (hφ : ∀ w, w ≠ [] → (∀ c ∈ w, pyIsSpace c = false) →
      φ w ≠ [] ∧ ∀ c ∈ φ w, pyIsSpace c = false)
    (x : PyStr) : noEdgeSpace (wordwiseFmt φ x) := by
  simp only [wordwiseFmt]
  by_cases hJ : containsJapanese (collapseWs (stripL x)) = true
  · rw [if_pos hJ]
    exact noEdgeSpace_collapseWs _ (noEdgeSpace_stripL x)
  · rw [if_neg hJ]
    exact noEdgeSpace_joinSp _ (goodWords_map φ hφ _ (goodWords_pySplit _))

theorem wsCanonical_wordwiseFmt (φ : PyStr → PyStr)
    (hφ : ∀ w, w ≠ [] → (∀ c ∈ w, pyIsSpace c = false) →
      φ w ≠ [] ∧ ∀ c ∈ φ w, pyIsSpace c = false)
    (x : PyStr) : wsCanonical (wordwiseFmt φ x) = true := by
  simp only [wordwiseFmt]
  by_cases hJ : containsJapanese (collapseWs (stripL x)) = true
  · rw [if_pos hJ]
    exact wsCanonical_collapseWs _
  · rw [if_neg hJ]
    exact wsCanonical_joinSp _ (goodWords_map φ hφ _ (goodWords_pySplit _))

theorem stripL_wordwiseFmt (φ : PyStr → PyStr)
    (hφ : ∀ w, w ≠ [] → (∀ c ∈ w, pyIsSpace c = false) →
      φ w ≠ [] ∧ ∀ c ∈ φ w, pyIsSpace c = false)
    (x : PyStr) : stripL (wordwiseFmt φ x) = wordwiseFmt φ x :=
  stripL_eq_self _ (noEdgeSpace_wordwiseFmt φ hφ x)

theorem collapseWs_stripL_wordwiseFmt (φ : PyStr → PyStr)
    (hφ : ∀ w, w ≠ [] → (∀ c ∈ w, pyIsSpace c = false) →
      φ w ≠ [] ∧ ∀ c ∈ φ w, pyIsSpace c = false)
    (x : PyStr) : collapseWs (stripL (wordwiseFmt φ x)) = wordwiseFmt φ x := by
  rw [stripL_wordwiseFmt φ hφ x]
  exact collapseWs_eq_self _ (wsCanonical_wordwiseFmt φ hφ x)

theorem wordwiseFmt_idem (φ : PyStr → PyStr)
    (hφ : ∀ w, w ≠ [] → (∀ c ∈ w, pyIsSpace c = false) →
      φ w ≠ [] ∧ ∀ c ∈ φ w, pyIsSpace c = false)
    (hjap : ∀ w, containsJapanese (φ w) = containsJapanese w)
    (hidem : ∀ w, φ (φ w) = φ w) (x : PyStr) :
    wordwiseFmt φ (wordwiseFmt φ x) = wordwiseFmt φ x := by
  rw [show wordwiseFmt φ (wordwiseFmt φ x)
      = (if containsJapanese (collapseWs (stripL (wordwiseFmt φ x)))
         then collapseWs (stripL (wordwiseFmt φ x))
         else joinSp ((pySplit (collapseWs (stripL (wordwiseFmt φ x)))).map φ)) from rfl,
    collapseWs_stripL_wordwiseFmt φ hφ x]
  by_cases hJ : containsJapanese (collapseWs (stripL x)) = true
  · have heq : wordwiseFmt φ x = collapseWs (stripL x) := by
      simp only [wordwiseFmt]
      rw [if_pos hJ]
    rw [heq, if_pos hJ]
  · have heq : wordwiseFmt φ x = joinSp ((pySplit (collapseWs (stripL x))).map φ) := by
      simp only [wordwiseFmt]
      rw [if_neg hJ]
    have hgood : goodWords ((pySplit (collapseWs (stripL x))).map φ) :=
      goodWords_map φ hφ _ (goodWords_pySplit _)
    have hJy : containsJapanese (wordwiseFmt φ x) = false := by
      rw [heq, containsJapanese_joinSp, List.any_map]
      refine List.any_eq_false.mpr ?_
      intro w hw
      rw [Function.comp_apply, hjap, containsJapanese]
      refine Bool.not_eq_true _ ▸ ?_
      refine (List.any_eq_false).mpr ?_
      intro c hc
      have hcs : c ∈ collapseWs (stripL x) := mem_pySplit_chars _ w hw c hc
      intro hJc
      exact hJ (List.any_eq_true.mpr ⟨c, hcs, hJc⟩)
    rw [hJy]
    simp only [Bool.false_eq_true, if_false]
    rw [heq, pySplit_joinSp _ hgood, List.map_map]
    congr 1
    exact List.map_congr_left (fun w _ => hidem w)

theorem format_name_idem (x : PyStr) : format_name (format_name x) = format_name x := by
  rw [format_name_eq, format_name_eq]
  exact wordwiseFmt_idem pyCapitalize pyCapitalize_good containsJapanese_pyCapitalize
    pyCapitalize_idem x

theorem stripL_format_name (x : PyStr) : stripL (format_name x) = format_name x := by
  rw [format_name_eq]
  exact stripL_wordwiseFmt pyCapitalize pyCapitalize_good x

theorem format_company_idem (x : PyStr) :
    format_company (format_company x) = format_company x := by
  rw [format_company_eq, format_company_eq]
  exact wordwiseFmt_idem capCompanyPart capCompanyPart_good containsJapanese_capCompanyPart
    capCompanyPart_idem x

theorem stripL_format_company (x : PyStr) :
    stripL (format_company x) = format_company x := by
  rw [format_company_eq]
  exact stripL_wordwiseFmt capCompanyPart capCompanyPart_good x

/- ====================================================================
   Newline machinery for the message branch (claim C10)
   ==================================================================== -/

theorem normNl_no_cr (l : PyStr) : '\r' ∉ normNl l := by
  induction l using normNl.induct <;> simp_all [normNl] <;>
    (intro hh; subst hh; simp_all)

theorem normNl_eq_self (l : PyStr) (h : '\r' ∉ l) : normNl l = l := by
  induction l using normNl.induct <;> simp_all [normNl]

theorem mem_collapseNlGo (l : PyStr) : ∀ run, ∀ c ∈ collapseNlGo run l, c = '\n' ∨ c ∈ l := by
  induction l with
  | nil =>
    intro run c hc
    rw [collapseNlGo] at hc
    exact Or.inl (List.eq_of_mem_replicate hc)
  | cons a as ih =>
    intro run c hc
    rw [collapseNlGo] at hc
    by_cases ha : a = '\n'
    · rw [if_pos ha] at hc
      rcases ih (run + 1) c hc with h | h
      · exact Or.inl h
      · exact Or.inr (List.mem_cons_of_mem a h)
    · rw [if_neg ha] at hc
      rcases List.mem_append.mp hc with h | h
      · exact Or.inl (List.eq_of_mem_replicate h)
      · rcases List.mem_cons.mp h with h2 | h2
        · exact Or.inr (by rw [h2]; exact List.mem_cons_self a as)
        · rcases ih 0 c h2 with h3 | h3
          · exact Or.inl h3
          · exact Or.inr (List.mem_cons_of_mem a h3)

theorem nlShortRuns_replicate_append (k : Nat) : ∀ j, j + k ≤ 2 → ∀ rest,
    nlShortRuns j (List.replicate k '\n' ++ rest) = nlShortRuns (j + k) rest := by
  induction k with
  | zero => intro j hj rest; simp
  | succ n ih =>
    intro j hj rest
    rw [List.replicate_succ, List.cons_append, nlShortRuns, if_pos rfl]
    rw [show (decide (j + 1 ≤ 2)) = true from by simp; omega]
    rw [Bool.true_and, ih (j + 1) (by omega) rest]
    congr 1
    omega

theorem nlShortRuns_collapseNlGo (l : PyStr) : ∀ run,
    nlShortRuns 0 (collapseNlGo run l) = true := by
  induction l with
  | nil =>
    intro run
    rw [collapseNlGo, ← List.append_nil (List.replicate (min run 2) '\n'),
      nlShortRuns_replicate_append (min run 2) 0 (by omega)]
    rfl
  | cons a as ih =>
    intro run
    rw [collapseNlGo]
    by_cases ha : a = '\n'
    · rw [if_pos ha]
      exact ih (run + 1)
    · rw [if_neg ha,
        nlShortRuns_replicate_append (min run 2) 0 (by omega),
        nlShortRuns, if_neg ha]
      exact ih 0

theorem collapseNlGo_eq_self (l : PyStr) : ∀ run, run ≤ 2 → nlShortRuns run l = true →
    collapseNlGo run l = List.replicate run '\n' ++ l := by
  induction l with
  | nil =>
    intro run hrun _
    rw [collapseNlGo, Nat.min_eq_left hrun, List.append_nil]
  | cons a as ih =>
    intro run hrun hsr
    rw [collapseNlGo]
    by_cases ha : a = '\n'
    · rw [if_pos ha]
      rw [nlShortRuns, if_pos ha, Bool.and_eq_true, decide_eq_true_eq] at hsr
      rw [ih (run + 1) hsr.1 hsr.2, List.replicate_succ', List.append_assoc]
      rw [ha]
      rfl
    · rw [if_neg ha]
      rw [nlShortRuns, if_neg ha] at hsr
      rw [ih 0 (by omega) hsr, Nat.min_eq_left hrun]
      rfl

theorem nlShortRuns_mono (l : PyStr) : ∀ j j', j' ≤ j → nlShortRuns j l = true →
    nlShortRuns j' l = true := by
  induction l with
  | nil => intro j j' _ _; rfl
  | cons a as ih =>
    intro j j' hjj h
    rw [nlShortRuns] at h ⊢
    by_cases ha : a = '\n'
    · rw [if_pos ha] at h ⊢
      rw [Bool.and_eq_true, decide_eq_true_eq] at h ⊢
      exact ⟨by omega, ih (j + 1) (j' + 1) (by omega) h.2⟩
    · rw [if_neg ha] at h ⊢
      exact h

theorem nlShortRuns_append_left (l₁ : PyStr) : ∀ l₂ j,
    nlShortRuns j (l₁ ++ l₂) = true → nlShortRuns j l₁ = true := by
  induction l₁ with
  | nil => intro l₂ j _; rfl
  | cons a as ih =>
    intro l₂ j h
    rw [List.cons_append, nlShortRuns] at h
    rw [nlShortRuns]
    by_cases ha : a = '\n'
    · rw [if_pos ha] at h ⊢
      rw [Bool.and_eq_true] at h ⊢
      exact ⟨h.1, ih l₂ (j + 1) h.2⟩
    · rw [if_neg ha] at h ⊢
      exact ih l₂ 0 h

theorem nlShortRuns_append_right (l₁ : PyStr) : ∀ l₂ j,
    nlShortRuns j (l₁ ++ l₂) = true → nlShortRuns 0 l₂ = true := by
  induction l₁ with
  | nil =>
    intro l₂ j h
    exact nlShortRuns_mono l₂ j 0 (by omega) h
  | cons a as ih =>
    intro l₂ j h
    rw [List.cons_append, nlShortRuns] at h
    by_cases ha : a = '\n'
    · rw [if_pos ha, Bool.and_eq_true] at h
      exact ih l₂ (j + 1) h.2
    · rw [if_neg ha] at h
      exact ih l₂ 0 h

theorem nlShortRuns_infix_closed (l l' : PyStr) (hinf : l' <:+: l)
    (h : nlShortRuns 0 l = true) : nlShortRuns 0 l' = true := by
  rcases hinf with ⟨t, s, rfl⟩
  have h2 := nlShortRuns_append_right t (l' ++ s) 0 (by rwa [← List.append_assoc])
  exact nlShortRuns_append_left l' s 0 h2

theorem collapseNl_eq_self (l : PyStr) (h : nlShortRuns 0 l = true) : collapseNl l = l := by
  rw [collapseNl, collapseNlGo_eq_self l 0 (by omega) h]
  rfl

theorem format_message_idem (m : PyStr) :
    format_message (format_message m) = format_message m := by
  rw [format_message, format_message]
  have hnr : '\r' ∉ stripL (collapseNl (normNl m)) := by
    intro hmem
    rcases mem_collapseNlGo (normNl m) 0 '\r' (mem_of_mem_stripL hmem) with h | h
    · exact absurd h (by decide)
    · exact normNl_no_cr m h
  rw [normNl_eq_self _ hnr]
  have hsr : nlShortRuns 0 (stripL (collapseNl (normNl m))) = true :=
    nlShortRuns_infix_closed _ _ (stripL_infix_self _) (nlShortRuns_collapseNlGo (normNl m) 0)
  rw [collapseNl_eq_self _ hsr, stripL_idem]

theorem stripL_format_message (m : PyStr) :
    stripL (format_message m) = format_message m := by
  rw [format_message, stripL_idem]

theorem bool_eq_false {b : Bool} (h : ¬ b = true) : b = false := by
  cases b
  · rfl
  · exact absurd rfl h

theorem vaf_empty (field_name value : PyStr) (field_type : Option PyStr)
    (hv : value.isEmpty = true) :
    validate_and_format field_name value field_type = value := by
  simp only [validate_and_format]
  rw [if_pos hv]

theorem vaf_email (field_name value : PyStr) (field_type : Option PyStr)
    (hv : value.isEmpty = false)
    (he : (field_type == some (pys "email") || containsSub (pys "email") (lowerL field_name) ||
      containsSub (pys "mail") (lowerL field_name)) = true) :
    validate_and_format field_name value field_type = format_email (stripL value) := by
  simp only [validate_and_format]
  rw [if_neg (by simp [hv]), if_pos he]

theorem vaf_name (field_name value : PyStr) (field_type : Option PyStr)
    (hv : value.isEmpty = false)
    (he : (field_type == some (pys "email") || containsSub (pys "email") (lowerL field_name) ||
      containsSub (pys "mail") (lowerL field_name)) = false)
    (hp : (field_type == some (pys "tel") || containsSub (pys "phone") (lowerL field_name) ||
      containsSub (pys "tel") (lowerL field_name) ||
      containsSub (pys "電話") field_name) = false)
    (hn : (containsSub (pys "name") (lowerL field_name) ||
      containsSub (pys "名前") field_name) = true) :
    validate_and_format field_name value field_type = format_name (stripL value) := by
  simp only [validate_and_format]
  rw [if_neg (by simp [hv]), if_neg (by simp [he]), if_neg (by simp [hp]), if_pos hn]

theorem vaf_company (field_name value : PyStr) (field_type : Option PyStr)
    (hv : value.isEmpty = false)
    (he : (field_type == some (pys "email") || containsSub (pys "email") (lowerL field_name) ||
      containsSub (pys "mail") (lowerL field_name)) = false)
    (hp : (field_type == some (pys "tel") || containsSub (pys "phone") (lowerL field_name) ||
      containsSub (pys "tel") (lowerL field_name) ||
      containsSub (pys "電話") field_name) = false)
    (hn : (containsSub (pys "name") (lowerL field_name) ||
      containsSub (pys "名前") field_name) = false)
    (hc : (containsSub (pys "company") (lowerL field_name) ||
      containsSub (pys "会社") field_name) = true) :
    validate_and_format field_name value field_type = format_company (stripL value) := by
  simp only [validate_and_format]
  rw [if_neg (by simp [hv]), if_neg (by simp [he]), if_neg (by simp [hp]),
    if_neg (by simp [hn]), if_pos hc]

theorem vaf_message (field_name value : PyStr) (field_type : Option PyStr)
    (hv : value.isEmpty = false)
    (he : (field_type == some (pys "email") || containsSub (pys "email") (lowerL field_name) ||
      containsSub (pys "mail") (lowerL field_name)) = false)
    (hp : (field_type == some (pys "tel") || containsSub (pys "phone") (lowerL field_name) ||
      containsSub (pys "tel") (lowerL field_name) ||
      containsSub (pys "電話") field_name) = false)
    (hn : (containsSub (pys "name") (lowerL field_name) ||
      containsSub (pys "名前") field_name) = false)
    (hc : (containsSub (pys "company") (lowerL field_name) ||
      containsSub (pys "会社") field_name) = false)
    (hm : (field_type == some (pys "textarea") ||
      containsSub (pys "message") (lowerL field_name) ||
      containsSub (pys "内容") field_name) = true) :
    validate_and_format field_name value field_type = format_message (stripL value) := by
  simp only [validate_and_format]
  rw [if_neg (by simp [hv]), if_neg (by simp [he]), if_neg (by simp [hp]),
    if_neg (by simp [hn]), if_neg (by simp [hc]), if_pos hm]

theorem vaf_default (field_name value : PyStr) (field_type : Option PyStr)
    (hv : value.isEmpty = false)
    (he : (field_type == some (pys "email") || containsSub (pys "email") (lowerL field_name) ||
      containsSub (pys "mail") (lowerL field_name)) = false)
    (hp : (field_type == some (pys "tel") || containsSub (pys "phone") (lowerL field_name) ||
      containsSub (pys "tel") (lowerL field_name) ||
      containsSub (pys "電話") field_name) = false)
    (hn : (containsSub (pys "name") (lowerL field_name) ||
      containsSub (pys "名前") field_name) = false)
    (hc : (containsSub (pys "company") (lowerL field_name) ||
      containsSub (pys "会社") field_name) = false)
    (hm : (field_type == some (pys "textarea") ||
      containsSub (pys "message") (lowerL field_name) ||
      containsSub (pys "内容") field_name) = false) :
    validate_and_format field_name value field_type = stripL value := by
  simp only [validate_and_format]
  rw [if_neg (by simp [hv]), if_neg (by simp [he]), if_neg (by simp [hp]),
    if_neg (by simp [hn]), if_neg (by simp [hc]), if_neg (by simp [hm])]

theorem vaf_idem_core (field_name value : PyStr) (field_type : Option PyStr)
    (h : selectsPhoneBranch field_name field_type = false) :
    validate_and_format field_name (validate_and_format field_name value field_type) field_type
      = validate_and_format field_name value field_type := by
  by_cases hv : value.isEmpty = true
  · have E := vaf_empty field_name value field_type hv
    rw [E]
    exact E
  · have hv' : value.isEmpty = false := bool_eq_false hv
    by_cases he : (field_type == some (pys "email") ||
        containsSub (pys "email") (lowerL field_name) ||
        containsSub (pys "mail") (lowerL field_name)) = true
    · rw [vaf_email field_name value field_type hv' he]
      by_cases hv2 : (format_email (stripL value)).isEmpty = true
      · exact vaf_empty field_name _ field_type hv2
      · rw [vaf_email field_name _ field_type (bool_eq_false hv2) he,
          stripL_format_email, format_email_idem]
    · have heF := bool_eq_false he
      have hp : (field_type == some (pys "tel") ||
          containsSub (pys "phone") (lowerL field_name) ||
          containsSub (pys "tel") (lowerL field_name) ||
          containsSub (pys "電話") field_name) = false := by
        rw [selectsPhoneBranch, selectsEmailBranch, heF] at h
        simpa using h
      by_cases hn : (containsSub (pys "name") (lowerL field_name) ||
          containsSub (pys "名前") field_name) = true
      · rw [vaf_name field_name value field_type hv' heF hp hn]
        by_cases hv2 : (format_name (stripL value)).isEmpty = true
        · exact vaf_empty field_name _ field_type hv2
        · rw [vaf_name field_name _ field_type (bool_eq_false hv2) heF hp hn,
            stripL_format_name, format_name_idem]
      · have hnF := bool_eq_false hn
        by_cases hc : (containsSub (pys "company") (lowerL field_name) ||
            containsSub (pys "会社") field_name) = true
        · rw [vaf_company field_name value field_type hv' heF hp hnF hc]
          by_cases hv2 : (format_company (stripL value)).isEmpty = true
          · exact vaf_empty field_name _ field_type hv2
          · rw [vaf_company field_name _ field_type (bool_eq_false hv2) heF hp hnF hc,
              stripL_format_company, format_company_idem]
        · have hcF := bool_eq_false hc
          by_cases hm : (field_type == some (pys "textarea") ||
              containsSub (pys "message") (lowerL field_name) ||
              containsSub (pys "内容") field_name) = true
          · rw [vaf_message field_name value field_type hv' heF hp hnF hcF hm]
            by_cases hv2 : (format_message (stripL value)).isEmpty = true
            · exact vaf_empty field_name _ field_type hv2
            · rw [vaf_message field_name _ field_type (bool_eq_false hv2) heF hp hnF hcF hm,
                stripL_format_message, format_message_idem]
          · have hmF := bool_eq_false hm
            rw [vaf_default field_name value field_type hv' heF hp hnF hcF hmF]
            by_cases hv2 : (stripL value).isEmpty = true
            · exact vaf_empty field_name _ field_type hv2
            · rw [vaf_default field_name _ field_type (bool_eq_false hv2) heF hp hnF hcF hmF,
                stripL_idem]

/-- C10 (counterexample): the field normalizer is not idempotent on the
phone branch. `_format_phone` turns the 12 digits `811234567890` (an
81-prefixed 10-digit local number) into `01-2345-67890`; the second pass
reads 11 digits back out of its own output and re-hyphenates them 3-4-4
as `012-3456-7890`, so applying `validate_and_format` to its own output
changes it again. -/
theorem validate_and_format_phone_counterexample :
    validate_and_format (pys "phone")
        (validate_and_format (pys "phone") (pys "811234567890") none) none
      ≠ validate_and_format (pys "phone") (pys "811234567890") none := by decide

/-- C10 (amended): the field normalizer is idempotent on every field that
does not route to the phone branch: whenever `selectsPhoneBranch` is
false (the email, name, company, message and default branches),
`validate_and_format` applied to its own output returns it unchanged, and
consequently `validate_form_data` is idempotent on data sets none of
whose fields routes to the phone branch. -/
theorem validate_and_format_idem_nonphone :
    (∀ (field_name value : PyStr) (field_type : Option PyStr),
      selectsPhoneBranch field_name field_type = false →
      validate_and_format field_name (validate_and_format field_name value field_type) field_type
        = validate_and_format field_name value field_type) ∧
    (∀ (form_data : List (PyStr × PyStr)) (field_info : List (PyStr × Option PyStr)),
      (∀ e ∈ form_data,
        selectsPhoneBranch e.1 ((field_info.find? (fun i => i.1 == e.1)).bind (·.2)) = false) →
      validate_form_data (validate_form_data form_data field_info) field_info
        = validate_form_data form_data field_info) := by
  constructor
  · exact vaf_idem_core
  · intro form_data field_info h
    simp only [validate_form_data, List.map_map]
    apply List.map_congr_left
    intro e he
    simp only [Function.comp_apply]
    rw [vaf_idem_core e.1 e.2 _ (h e he)]

/-- Witness for C10's amended theorem: a name field with untidy spacing,
normalized once, is a fixed point of a second pass. -/
theorem validate_and_format_idem_nonphone_witness :
    selectsPhoneBranch (pys "name") none = false ∧
    validate_and_format (pys "name")
        (validate_and_format (pys "name") (pys "  john   smith ") none) none
      = validate_and_format (pys "name") (pys "  john   smith ") none :=
  ⟨by decide, validate_and_format_idem_nonphone.1 (pys "name") (pys "  john   smith ") none
    (by decide)⟩
